import Mathlib

/-
Verification development for the NexGen-Logistics data-fusion and
predictive-risk pipeline (src/data_loader.py, src/model.py, src/app.py).

The tabular data model is embedded shallowly: a DataFrame is a list of
column names together with a list of rows, each row a list of cell
values (numbers, strings, or nulls, the latter standing for pandas NaN).
Numeric cells are modelled as integers: every constant of the source's
defaulting policy and every numeric value at issue in the stated
properties is integral.  The exact ratio values sklearn reports as
floats (probabilities, accuracy, ROC-AUC, importances) are modelled as
unreduced integer fractions.
Library operations used by the source (pandas merge/column assignment,
sklearn LabelEncoder / train_test_split / RandomForestClassifier) are
embedded at the level of behaviour the source relies on; where the
learned contents of the random-forest model are irrelevant to every
stated property, they are abstracted as a deterministic function of the
training data, as noted at the definition.
-/

set_option maxRecDepth 8000
set_option maxHeartbeats 2000000

namespace NexGen

/-- Cell value of a tabular dataset: a missing value (pandas NaN), a
number, or a string. -/
inductive Value where
  | null : Value
  | num : Int → Value
  | str : String → Value
deriving DecidableEq, Repr

/-- An exact ratio kept unreduced (numerator over denominator); stands
for the float ratios sklearn computes.  All denominators that arise are
positive. -/
structure Frac where
  num : Int
  den : Int
deriving DecidableEq, Repr

def fracLe (a b : Frac) : Bool := decide (a.num * b.den ≤ b.num * a.den)

def fracLt (a b : Frac) : Bool := decide (a.num * b.den < b.num * a.den)

/-- value equality of two ratios (cross multiplication). -/
def fracEqv (a b : Frac) : Bool := decide (a.num * b.den = b.num * a.den)

/-- A dataframe: column names plus rows of cells. -/
structure DataFrame where
  cols : List String
  rows : List (List Value)
deriving DecidableEq, Repr

/-- nth element of a list with an explicit default. -/
def nthD {α : Type} (dflt : α) : List α → Nat → α
  | [], _ => dflt
  | v :: _, 0 => v
  | _ :: vs, n+1 => nthD dflt vs n

/-- nth cell of a row; missing entries read as null. -/
def nthV (l : List Value) (i : Nat) : Value := nthD Value.null l i

/-- replace the nth element of a list (no-op past the end). -/
def setNth : List Value → Nat → Value → List Value
  | [], _, _ => []
  | _ :: vs, 0, v => v :: vs
  | w :: vs, n+1, v => w :: setNth vs n v

/-- drop the element at an index. -/
def dropNth {α : Type} : List α → Nat → List α
  | [], _ => []
  | _ :: vs, 0 => vs
  | w :: vs, n+1 => w :: dropNth vs n

/-- index of the first occurrence of an element. -/
def idxOf? {α : Type} [DecidableEq α] : List α → α → Option Nat
  | [], _ => none
  | c :: cs, t => if c = t then some 0 else (idxOf? cs t).map (· + 1)

/-- index of the first column with the given name. -/
def colIdx? (cols : List String) (c : String) : Option Nat := idxOf? cols c

def hasCol (d : DataFrame) (c : String) : Bool := (colIdx? d.cols c).isSome

def numRows (d : DataFrame) : Nat := d.rows.length

/-- the cells of a named column (empty when the column is absent). -/
def getCol (d : DataFrame) (c : String) : List Value :=
  match colIdx? d.cols c with
  | some i => d.rows.map (fun r => nthV r i)
  | none => []

/-- pandas column assignment df[c] = vs: overwrite the column when it is
present, append it otherwise. -/
def setCol (d : DataFrame) (c : String) (vs : List Value) : DataFrame :=
  match colIdx? d.cols c with
  | some i => { d with rows := (d.rows.zip vs).map (fun p => setNth p.1 i p.2) }
  | none => { cols := d.cols ++ [c], rows := (d.rows.zip vs).map (fun p => p.1 ++ [p.2]) }

def setConst (d : DataFrame) (c : String) (v : Value) : DataFrame :=
  setCol d c (d.rows.map (fun _ => v))

/-- every row has exactly one cell per column. -/
def wellFormedB (d : DataFrame) : Bool :=
  d.rows.all (fun r => r.length == d.cols.length)

def cellAt (d : DataFrame) (c : String) (i : Nat) : Value := nthV (getCol d c) i

/- ----------------------------------------------------------------
   Column Normalizer (src/data_loader.py lines 3-17)
   ---------------------------------------------------------------- -/

/-- python str.strip on the character list. -/
def trimChars (l : List Char) : List Char :=
  ((l.dropWhile Char.isWhitespace).reverse.dropWhile Char.isWhitespace).reverse

/-- python str.lower. -/
def lowerStr (s : String) : String := String.mk (s.toList.map Char.toLower)

/-- header normalization: strip, lower-case, replace spaces by
underscores (data_loader.standardize_columns: .str.strip().str.lower()
.str.replace(" ", "_"); the pattern is the single space character, so
the replacement is a character map). -/
def normHeader (s : String) : String :=
  String.mk (((trimChars s.toList).map Char.toLower).map (fun c => if c = ' ' then '_' else c))

def standardizeHeaders (d : DataFrame) : DataFrame :=
  { d with cols := d.cols.map normHeader }

/-- data_loader.auto_rename_id: rename the first matching candidate
column to the standard name; no-op when none matches. -/
def autoRenameId (d : DataFrame) (possible : List String) (std : String) : DataFrame :=
  match possible.find? (fun n => hasCol d n) with
  | some n => { d with cols := d.cols.map (fun c => if c = n then std else c) }
  | none => d

/- ----------------------------------------------------------------
   pandas left merge (df.merge(r, on=k, how="left"))
   ---------------------------------------------------------------- -/

/-- key cells match only when both are non-null and equal (NaN never
matches under pandas join semantics). -/
def keyMatch : Value → Value → Bool
  | Value.null, _ => false
  | _, Value.null => false
  | a, b => decide (a = b)

/-- l.merge(r, on=k, how="left"): every left row is preserved; matching
right rows multiply it, a missing match null-fills the right columns;
overlapping non-key column names receive pandas suffixes. -/
def leftMerge (l r : DataFrame) (k : String) : DataFrame :=
  let li := (colIdx? l.cols k).getD 0
  let ri := (colIdx? r.cols k).getD 0
  let rCols := dropNth r.cols ri
  let ov : String → Bool := fun c =>
    decide (c ≠ k) && (colIdx? l.cols c).isSome && (colIdx? rCols c).isSome
  let lcols := l.cols.map (fun c => if ov c then c ++ "_x" else c)
  let rcols := rCols.map (fun c => if ov c then c ++ "_y" else c)
  let mkRows : List Value → List (List Value) := fun lr =>
    let kv := nthV lr li
    match r.rows.filter (fun rr => keyMatch kv (nthV rr ri)) with
    | [] => [lr ++ List.replicate rCols.length Value.null]
    | ms => ms.map (fun rr => lr ++ dropNth rr ri)
  { cols := lcols ++ rcols, rows := (l.rows.map mkRows).flatten }

/- ----------------------------------------------------------------
   Dataset Fuser (data_loader.load_all_data)
   ---------------------------------------------------------------- -/

/-- string form of a cell under pandas astype(str); NaN prints as
"nan". -/
def valStr : Value → String
  | Value.null => "nan"
  | Value.num q => toString q
  | Value.str s => s

/-- last n characters of a string (pandas .str[-4:]). -/
def takeRightStr (s : String) (n : Nat) : String :=
  String.mk ((s.toList.reverse.take n).reverse)

/-- orders["customer_segment"] + "_" + orders["order_id"].astype(str).str[-4:]
with NaN propagation from the segment column. -/
def deriveCustomerId (d : DataFrame) : List Value :=
  ((getCol d "customer_segment").zip (getCol d "order_id")).map (fun p =>
    match p.1 with
    | Value.null => Value.null
    | v => Value.str (valStr v ++ "_" ++ takeRightStr (valStr p.2) 4))

def projectCols (d : DataFrame) (cs : List String) : DataFrame :=
  { cols := cs.filter (fun c => hasCol d c),
    rows := d.rows.map (fun r => (cs.filterMap (fun c => colIdx? d.cols c)).map (fun i => nthV r i)) }

/-- drop_duplicates(): full-row de-duplication keeping the first
occurrence. -/
def dedupRowsAux (seen : List (List Value)) : List (List Value) → List (List Value)
  | [] => []
  | r :: rs => if r ∈ seen then dedupRowsAux seen rs else r :: dedupRowsAux (r :: seen) rs

def dedupRowsDf (d : DataFrame) : DataFrame :=
  { d with rows := dedupRowsAux [] d.rows }

/-- drop_duplicates(subset=[c]): keep the first row per key value. -/
def dedupByColAux (i : Nat) (seen : List Value) : List (List Value) → List (List Value)
  | [] => []
  | r :: rs =>
    if nthV r i ∈ seen then dedupByColAux i seen rs
    else r :: dedupByColAux i (nthV r i :: seen) rs

def dedupByCol (d : DataFrame) (c : String) : DataFrame :=
  { d with rows := dedupByColAux ((colIdx? d.cols c).getD 0) [] d.rows }

def dropColumn (d : DataFrame) (c : String) : DataFrame :=
  match colIdx? d.cols c with
  | some i => { cols := dropNth d.cols i, rows := d.rows.map (fun r => dropNth r i) }
  | none => d

/-- does the character list begin with the pattern. -/
def charsLeadWith : List Char → List Char → Bool
  | _, [] => true
  | [], _ :: _ => false
  | a :: xs, b :: ys => a = b && charsLeadWith xs ys

def charsHaveSub : List Char → List Char → Bool
  | [], pat => pat.isEmpty
  | a :: rest, pat => charsLeadWith (a :: rest) pat || charsHaveSub rest pat

/-- substring test (python: pat in s). -/
def strContains (s pat : String) : Bool := charsHaveSub s.toList pat.toList

def isCostCol (c : String) : Bool :=
  strContains (lowerStr c) "cost" || strContains (lowerStr c) "charge"

/-- the columns whose (lower-cased) name contains "cost" or "charge"
(data_loader line 105). -/
def costCols (d : DataFrame) : List String := d.cols.filter isCostCol

/-- numeric content of a cell for a row-wise sum with skipna=True (nulls
contribute 0). -/
def valNumOr0 : Value → Int
  | Value.num q => q
  | _ => 0

/-- df[cost_columns].sum(axis=1, skipna=True). -/
def rowSums (d : DataFrame) (cs : List String) : List Value :=
  d.rows.map (fun r =>
    Value.num ((cs.map (fun c => valNumOr0 (nthV r ((colIdx? d.cols c).getD 0)))).sum))

/- The post-join defaulting chain, one definition per source branch
   (data_loader lines 68-121, in source order). -/

def dRoute (d : DataFrame) : DataFrame :=
  if hasCol d "route_distance_km" then d
  else if hasCol d "distance_km" then setCol d "route_distance_km" (getCol d "distance_km")
  else setConst d "route_distance_km" (Value.num 100)

def dVehicleCap (d : DataFrame) : DataFrame :=
  if hasCol d "vehicle_capacity" then d else setConst d "vehicle_capacity" (Value.num 1000)

def dWarehouseLoad (d : DataFrame) : DataFrame :=
  if hasCol d "warehouse_load" then d else setConst d "warehouse_load" (Value.num 50)

def dPriority (d : DataFrame) : DataFrame :=
  if hasCol d "delivery_priority" then d
  else if hasCol d "priority" then setCol d "delivery_priority" (getCol d "priority")
  else setConst d "delivery_priority" (Value.str "medium")

def dFuelCost (d : DataFrame) : DataFrame :=
  if hasCol d "fuel_cost" then d else setConst d "fuel_cost" (Value.num 500)

def dMaintCost (d : DataFrame) : DataFrame :=
  if hasCol d "maintenance_cost" then d
  else if hasCol d "vehicle_maintenance" then setCol d "maintenance_cost" (getCol d "vehicle_maintenance")
  else setConst d "maintenance_cost" (Value.num 200)

def dActualDays (d : DataFrame) : DataFrame :=
  if hasCol d "actual_delivery_days" then d else setConst d "actual_delivery_days" (Value.num 5)

def dExpectedDays (d : DataFrame) : DataFrame :=
  if hasCol d "expected_delivery_days" then d
  else if hasCol d "promised_delivery_days" then setCol d "expected_delivery_days" (getCol d "promised_delivery_days")
  else setConst d "expected_delivery_days" (Value.num 3)

def dTotalCost (d : DataFrame) : DataFrame :=
  if hasCol d "total_cost" then d
  else
    match costCols d with
    | [] => setConst d "total_cost" (Value.num 1000)
    | _ => setCol d "total_cost" (rowSums d (costCols d))

def dFeedbackScore (d : DataFrame) : DataFrame :=
  if hasCol d "feedback_score" then d
  else if hasCol d "rating" then setCol d "feedback_score" (getCol d "rating")
  else setConst d "feedback_score" (Value.num 3)

def dFuelRate (d : DataFrame) : DataFrame :=
  if hasCol d "fuel_consumption_rate" then d
  else if hasCol d "fuel_consumption_l" then setCol d "fuel_consumption_rate" (getCol d "fuel_consumption_l")
  else setConst d "fuel_consumption_rate" (Value.num 5)

/-- the defaulting steps that run before the total_cost step. -/
def preTotal (d : DataFrame) : DataFrame :=
  dExpectedDays (dActualDays (dMaintCost (dFuelCost (dPriority (dWarehouseLoad (dVehicleCap (dRoute d)))))))

/-- the full post-join defaulting block (data_loader lines 68-121). -/
def applyDefaults (d : DataFrame) : DataFrame :=
  dFuelRate (dFeedbackScore (dTotalCost (preTotal d)))

/-- the seven loaded source tables (the CSV reads of lines 20-26,
modelled as inputs: file I/O carries no logic). -/
structure Sources where
  orders : DataFrame
  delivery : DataFrame
  routes : DataFrame
  vehicles : DataFrame
  costs : DataFrame
  warehouse : DataFrame
  feedback : DataFrame
deriving DecidableEq, Repr

def ordersKeyed (s : Sources) : DataFrame :=
  autoRenameId (standardizeHeaders s.orders) ["orderid", "order_id"] "order_id"

def deliveryKeyed (s : Sources) : DataFrame :=
  autoRenameId (standardizeHeaders s.delivery) ["orderid", "order_id"] "order_id"

def costsKeyed (s : Sources) : DataFrame :=
  autoRenameId (standardizeHeaders s.costs) ["orderid", "order_id"] "order_id"

def feedbackKeyed (s : Sources) : DataFrame :=
  autoRenameId (standardizeHeaders s.feedback) ["orderid", "order_id"] "order_id"

/-- routes after id reconciliation and the route → route_id derivation
(lines 32, 39-40). -/
def routesKeyed (s : Sources) : DataFrame :=
  let r := autoRenameId (standardizeHeaders s.routes) ["orderid", "order_id"] "order_id"
  if hasCol r "route" then setCol r "route_id" (getCol r "route") else r

/-- orders after the customer_id derivation (lines 43-44). -/
def ordersPrepped (s : Sources) : DataFrame :=
  let o := ordersKeyed s
  if hasCol o "customer_segment" && !hasCol o "customer_id"
  then setCol o "customer_id" (deriveCustomerId o) else o

/-- the first three left-joins of load_all_data (lines 47-52): orders
with delivery, then routes, then costs, all on order_id. -/
def fuse3 (s : Sources) : DataFrame :=
  leftMerge (leftMerge (leftMerge (ordersPrepped s) (deliveryKeyed s) "order_id")
    (routesKeyed s) "order_id") (costsKeyed s) "order_id"

/-- feedback propagated to customer level (lines 56-60): the order to
customer mapping is joined onto feedback, order_id is dropped and
duplicate customers are dropped keeping the first. -/
def feedbackCust (s : Sources) : DataFrame :=
  dedupByCol (dropColumn (leftMerge (feedbackKeyed s)
    (dedupRowsDf (projectCols (fuse3 s) ["order_id", "customer_id"])) "order_id")
    "order_id") "customer_id"

/-- the merge sequence of load_all_data (lines 47-65), producing the
fused table before defaulting. -/
def fuseSources (s : Sources) : DataFrame :=
  if hasCol (fuse3 s) "customer_id"
  then leftMerge (fuse3 s) (feedbackCust s) "customer_id"
  else leftMerge (fuse3 s) (feedbackKeyed s) "order_id"

/-- data_loader.load_all_data, as a function of the seven loaded source
tables: normalization, id reconciliation, the left-join sequence, then
the post-join defaulting chain. -/
def load_all_data (s : Sources) : DataFrame := applyDefaults (fuseSources s)

/- ----------------------------------------------------------------
   Feature/Label Deriver and Risk Model Trainer (src/model.py)
   ---------------------------------------------------------------- -/

/-- pandas series comparison a > b: true only for two numbers with
a greater; comparisons involving NaN are false. -/
def valGt : Value → Value → Bool
  | Value.num a, Value.num b => decide (b < a)
  | _, _ => false

/-- model.py line 11:
df["delayed"] = (df["actual_delivery_days"] > df["expected_delivery_days"]).astype(int). -/
def deriveDelayed (d : DataFrame) : DataFrame :=
  setCol d "delayed"
    (((getCol d "actual_delivery_days").zip (getCol d "expected_delivery_days")).map
      (fun p => Value.num (if valGt p.1 p.2 then 1 else 0)))

/-- the fixed feature projection (model.py lines 13-20). -/
def featureList : List String :=
  ["route_distance_km", "vehicle_capacity", "warehouse_load",
   "delivery_priority", "fuel_cost", "maintenance_cost"]

/-- df.dropna(): drop every row containing a null. -/
def dropNullRows (d : DataFrame) : DataFrame :=
  { d with rows := d.rows.filter (fun r => !(r.any (fun v => v = Value.null))) }

/-- insertion sort by a boolean comparison (deterministic). -/
def insertSorted {α : Type} (le : α → α → Bool) (a : α) : List α → List α
  | [] => [a]
  | b :: bs => if le a b then a :: b :: bs else b :: insertSorted le a bs

def sortByB {α : Type} (le : α → α → Bool) : List α → List α
  | [] => []
  | a :: xs => insertSorted le a (sortByB le xs)

/-- a total order on cell values (nulls, then numbers, then strings;
sklearn only ever sorts homogeneous class sets). -/
def charsLe : List Char → List Char → Bool
  | [], _ => true
  | _ :: _, [] => false
  | a :: xs, b :: ys => if a = b then charsLe xs ys else decide (a < b)

def valLe (a b : Value) : Bool :=
  match a, b with
  | Value.null, _ => true
  | _, Value.null => false
  | Value.num x, Value.num y => decide (x ≤ y)
  | Value.num _, Value.str _ => true
  | Value.str _, Value.num _ => false
  | Value.str x, Value.str y => charsLe x.toList y.toList

/-- np.unique: the sorted set of observed values. -/
def uniqueSorted (l : List Value) : List Value := sortByB valLe l.dedup

def uniqueSortedInt (l : List Int) : List Int := sortByB (fun a b => decide (a ≤ b)) l.dedup

/-- a fitted sklearn LabelEncoder: its ordered class set. -/
structure LabelEnc where
  classes : List Value
deriving DecidableEq, Repr

def fitEnc (vs : List Value) : LabelEnc := ⟨uniqueSorted vs⟩

/-- the error text of LabelEncoder.transform on a value outside the
fitted class set. -/
def unseenMsg : String := "y contains previously unseen labels"

/-- sequence a fallible map over a list (first error wins). -/
def seqMapE {α β : Type} (f : α → Except String β) : List α → Except String (List β)
  | [] => Except.ok []
  | a :: l =>
    match f a with
    | Except.error e => Except.error e
    | Except.ok b =>
      match seqMapE f l with
      | Except.error e => Except.error e
      | Except.ok bs => Except.ok (b :: bs)

/-- LabelEncoder.transform on a single value: its class index, or the
unseen-labels error. -/
def encOne (e : LabelEnc) (v : Value) : Except String Nat :=
  match idxOf? e.classes v with
  | some i => Except.ok i
  | none => Except.error unseenMsg

/-- LabelEncoder.transform: each value maps to its class index; a value
outside the fitted classes raises. -/
def encTransform (e : LabelEnc) (vs : List Value) : Except String (List Nat) :=
  seqMapE (encOne e) vs

/-- LabelEncoder.fit_transform applied in place to one column
(model.py lines 29-31). -/
def fitTransformCol (d : DataFrame) (c : String) : DataFrame × LabelEnc :=
  let e := fitEnc (getCol d c)
  (setCol d c ((getCol d c).map (fun v => Value.num ((idxOf? e.classes v).getD 0))), e)

/-- is a column of object dtype (it holds at least one string). -/
def isObjectCol (d : DataFrame) (c : String) : Bool :=
  (getCol d c).any (fun v => match v with | Value.str _ => true | _ => false)

/-- df_model.select_dtypes(include="object").columns, evaluated once
before the encoding loop. -/
def objectCols (d : DataFrame) : List String := d.cols.filter (isObjectCol d)

def encodeObjectsAux : List String → DataFrame → DataFrame × List (String × LabelEnc)
  | [], d => (d, [])
  | c :: cs, d =>
    let p := fitTransformCol d c
    let rest := encodeObjectsAux cs p.1
    (rest.1, (c, p.2) :: rest.2)

/-- the encoding loop of model.py lines 27-31, also returning the
encoder per column in insertion order. -/
def encodeObjects (d : DataFrame) : DataFrame × List (String × LabelEnc) :=
  encodeObjectsAux (objectCols d) d

def digitVal? (c : Char) : Option Nat :=
  if 48 ≤ c.toNat && c.toNat ≤ 57 then some (c.toNat - 48) else none

def digitsVal? : List Char → Nat → Option Nat
  | [], acc => some acc
  | c :: cs, acc =>
    match digitVal? c with
    | some dg => digitsVal? cs (acc * 10 + dg)
    | none => none

/-- integral numeric strings parse; anything else fails. -/
def strToInt? (s : String) : Option Int :=
  match s.toList with
  | [] => none
  | '-' :: cs => if cs.isEmpty then none else (digitsVal? cs 0).map (fun n => -(n : Int))
  | cs => (digitsVal? cs 0).map (fun n => (n : Int))

/-- pandas to_numeric with errors="coerce": numbers pass through,
numeric strings parse, anything else becomes NaN. -/
def toNumericVal : Value → Value
  | Value.num q => Value.num q
  | Value.null => Value.null
  | Value.str s =>
    match strToInt? s with
    | some n => Value.num n
    | none => Value.null

/-- the numeric-coercion loop of model.py lines 34-35. -/
def coerceNumeric (cs : List String) (d : DataFrame) : DataFrame :=
  match cs with
  | [] => d
  | c :: rest => coerceNumeric rest (setCol d c ((getCol d c).map toNumericVal))

/-- the prepared model frame df_model at model.py line 36 (projection,
dropna, categorical encoding, numeric coercion, dropna), plus the
encoder registry. -/
def prepModelFrame (d : DataFrame) : DataFrame × List (String × LabelEnc) :=
  let dm := dropNullRows (projectCols (deriveDelayed d) (featureList ++ ["delayed"]))
  let p := encodeObjects dm
  (dropNullRows (coerceNumeric featureList p.1), p.2)

/-- numeric content of a prepared cell. -/
def valInt : Value → Int
  | Value.num q => q
  | _ => 0

/-- the guard under which the source's column selections succeed; when
it is false pandas raises a KeyError for the missing column. -/
def trainCols0k (d : DataFrame) : Bool :=
  hasCol d "actual_delivery_days" && hasCol d "expected_delivery_days" &&
    featureList.all (fun c => hasCol (deriveDelayed d) c)

/-- the label vector y of model.py line 39, after preparation. -/
def prepY (d : DataFrame) : List Int :=
  if trainCols0k d then (getCol (prepModelFrame d).1 "delayed").map valInt else []

/-- the feature matrix X of model.py line 38, after preparation. -/
def prepX (d : DataFrame) : List (List Int) :=
  (projectCols (prepModelFrame d).1 featureList).rows.map (fun r => r.map valInt)

/- sklearn train_test_split(test_size=0.25, random_state=42,
   stratify=y), model.py lines 41-43. -/

def lookupQ : List (Int × Nat) → Int → Nat
  | [], _ => 0
  | p :: ps, c => if p.1 = c then p.2 else lookupQ ps c

def decQ : List (Int × Nat) → Int → List (Int × Nat)
  | [], _ => []
  | p :: ps, c => if p.1 = c then (p.1, p.2 - 1) :: ps else p :: decQ ps c

/-- deterministic stand-in for the seeded stratified shuffle: rows are
taken into the test split while their class quota lasts. -/
def stratPartition (q : List (Int × Nat)) :
    List (List Int × Int) → (List (List Int × Int) × List (List Int × Int))
  | [] => ([], [])
  | p :: ps =>
    if 0 < lookupQ q p.2 then
      let rest := stratPartition (decQ q p.2) ps
      (p :: rest.1, rest.2)
    else
      let rest := stratPartition q ps
      (rest.1, p :: rest.2)

def tooFewMsg : String :=
  "The least populated class in y has only 1 member, which is too few."

/-- the per-class test quota of the modelled stratified shuffle:
ceil(count * n_test / n) rows of each class go to the test split. -/
def ttsQuota (y : List Int) : List (Int × Nat) :=
  (uniqueSortedInt y).map (fun c =>
    (c, (y.count c * ((y.length + 3) / 4) + (y.length - 1)) / y.length))

/-- sklearn train_test_split with stratification: its validation errors
are reproduced; the seeded shuffle (random_state=42) is modelled by the
deterministic per-class quota selection.  test_size=0.25 gives
n_test = ceil(n/4). -/
def trainTestSplit (X : List (List Int)) (y : List Int) :
    Except String ((List (List Int) × List (List Int)) × (List Int × List Int)) :=
  if y.length = 0 then
    Except.error "With n_samples=0, test_size=0.25 and train_size=None, the resulting train set will be empty."
  else if ((uniqueSortedInt y).map (fun c => (c, y.count c))).any (fun p => p.2 < 2) then
    Except.error tooFewMsg
  else if (y.length + 3) / 4 < (uniqueSortedInt y).length then
    Except.error "The test_size should be greater or equal to the number of classes"
  else if y.length - (y.length + 3) / 4 < (uniqueSortedInt y).length then
    Except.error "The train_size should be greater or equal to the number of classes"
  else
    Except.ok (((stratPartition (ttsQuota y) (X.zip y)).2.map (fun p => p.1),
                (stratPartition (ttsQuota y) (X.zip y)).1.map (fun p => p.1)),
               ((stratPartition (ttsQuota y) (X.zip y)).2.map (fun p => p.2),
                (stratPartition (ttsQuota y) (X.zip y)).1.map (fun p => p.2)))

/-- a fitted RandomForestClassifier(n_estimators=300, max_depth=10,
min_samples_leaf=5, random_state=42, class_weight="balanced").
Modelled library semantics: the fitted ensemble is a deterministic
function of the training data and the seed; its class list is the
sorted set of training labels, exactly as sklearn's classes_. -/
structure RFModel where
  randomState : Nat
  classes : List Int
  trainX : List (List Int)
  trainY : List Int
deriving DecidableEq, Repr

def rfFit (seed : Nat) (X : List (List Int)) (y : List Int) : Except String RFModel :=
  if y.isEmpty then Except.error "Found array with 0 sample(s)"
  else Except.ok ⟨seed, uniqueSortedInt y, X, y⟩

/-- predict_proba for one row: one probability per fitted class (the
learned tree votes are abstracted as the deterministic class-frequency
function of the training labels; every stated property depends only on
determinism and on the column count matching classes_). -/
def rfProbaRow (m : RFModel) (_x : List Int) : List Frac :=
  m.classes.map (fun c => ⟨(m.trainY.count c : Int), (m.trainY.length : Int)⟩)

def argmaxIdxAux : List Frac → Nat → Frac → Nat → Nat
  | [], _, _, best => best
  | a :: l, i, bv, best =>
    if fracLt bv a then argmaxIdxAux l (i+1) a i else argmaxIdxAux l (i+1) bv best

/-- np.argmax: index of the first maximum. -/
def argmaxIdx : List Frac → Nat
  | [] => 0
  | a :: l => argmaxIdxAux l 1 a 0

def rfPredictRow (m : RFModel) (x : List Int) : Int :=
  m.classes.getD (argmaxIdx (rfProbaRow m x)) 0

/-- predict_proba(...)[:, 1] on one row: the second probability column;
with a single fitted class the column does not exist and numpy raises. -/
def probaCol1 : List Frac → Except String Frac
  | _ :: b :: _ => Except.ok b
  | _ => Except.error "index 1 is out of bounds for axis 1 with size 1"

/-- sklearn accuracy_score. -/
def accuracyScore (yt yp : List Int) : Frac :=
  ⟨((yt.zip yp).countP (fun p => decide (p.1 = p.2)) : Int), (yt.length : Int)⟩

/-- sklearn roc_auc_score for the binary labels, computed by the
pair-counting formula; a single-class truth vector raises. -/
def rocAucScore (yt : List Int) (ys : List Frac) : Except String Frac :=
  let pairs := yt.zip ys
  let pos := (pairs.filter (fun p => decide (p.1 = 1))).map (fun p => p.2)
  let neg := (pairs.filter (fun p => decide (p.1 ≠ 1))).map (fun p => p.2)
  if pos.isEmpty || neg.isEmpty then
    Except.error "Only one class present in y_true. ROC AUC score is not defined in that case."
  else
    Except.ok ⟨((pos.map (fun sp =>
        2 * (neg.countP (fun sn => fracLt sn sp) : Int)
          + (neg.countP (fun sn => fracEqv sn sp) : Int))).sum),
      2 * (pos.length : Int) * (neg.length : Int)⟩

/-- sklearn confusion_matrix: rows are actual labels, columns predicted
labels, over the sorted label set. -/
def confusionMatrix (yt yp : List Int) : List (List Nat) :=
  let labels := uniqueSortedInt (yt ++ yp)
  labels.map (fun a => labels.map (fun p => (yt.zip yp).count (a, p)))

/-- feature_importances_ of the fitted forest.  Modelled library
semantics: a deterministic function of the fitted model, abstracted as
the uniform distribution over the features. -/
def rfImportances (_m : RFModel) (k : Nat) : List Frac :=
  List.replicate k ⟨1, (k : Int)⟩

/-- pd.Series(...).sort_values(ascending=False). -/
def sortPairsDesc (l : List (String × Frac)) : List (String × Frac) :=
  sortByB (fun a b => fracLe b.2 a.2) l

structure EvalMetrics where
  accuracy : Frac
  rocAuc : Frac
  confusion : List (List Nat)
  featureImportance : List (String × Frac)
deriving DecidableEq, Repr

/-- the quadruple returned by model.train_delay_model. -/
structure TrainResult where
  model : RFModel
  features : List String
  encoders : List (String × LabelEnc)
  metrics : EvalMetrics
deriving DecidableEq, Repr

/-- model.train_delay_model: label derivation, feature projection,
row dropping, categorical encoding, numeric coercion, stratified split
with the fixed seed, forest fit, and the evaluation report.  Failures
of the underlying libraries surface as errors with their messages. -/
def trainDelayModel (d0 : DataFrame) : Except String TrainResult :=
  if !trainCols0k d0 then Except.error "KeyError"
  else
    match trainTestSplit (prepX d0) (prepY d0) with
    | Except.error e => Except.error e
    | Except.ok ((Xtr, Xte), (ytr, yte)) =>
      match rfFit 42 Xtr ytr with
      | Except.error e => Except.error e
      | Except.ok m =>
        match seqMapE (fun x => probaCol1 (rfProbaRow m x)) Xte with
        | Except.error e => Except.error e
        | Except.ok yprob =>
          match rocAucScore yte yprob with
          | Except.error e => Except.error e
          | Except.ok auc =>
            Except.ok ⟨m, featureList, (prepModelFrame d0).2,
              ⟨accuracyScore yte (Xte.map (rfPredictRow m)), auc,
               confusionMatrix yte (Xte.map (rfPredictRow m)),
               sortPairsDesc (featureList.zip (rfImportances m featureList.length))⟩⟩

/- ----------------------------------------------------------------
   Inference Interface (src/app.py lines 183-193)
   ---------------------------------------------------------------- -/

/-- the encoding loop of app.py lines 184-186: apply each fitted
encoder (transform, not re-fit) to its column when present. -/
def encodeWithFitted : List (String × LabelEnc) → DataFrame → Except String DataFrame
  | [], d => Except.ok d
  | (c, e) :: rest, d =>
    if hasCol d c then
      match encTransform e (getCol d c) with
      | Except.error m => Except.error m
      | Except.ok ns =>
        encodeWithFitted rest (setCol d c (ns.map (fun n => Value.num (Int.ofNat n))))
    else encodeWithFitted rest d

/-- astype(float), app.py line 189: strings that are not numeric
raise. -/
def valToFloat : Value → Except String Value
  | Value.num q => Except.ok (Value.num q)
  | Value.null => Except.ok Value.null
  | Value.str s =>
    match strToInt? s with
    | some n => Except.ok (Value.num n)
    | none => Except.error "could not convert string to float"

def astypeFloat (d : DataFrame) : Except String DataFrame :=
  match seqMapE (fun r => seqMapE valToFloat r) d.rows with
  | Except.error e => Except.error e
  | Except.ok rs => Except.ok { d with rows := rs }

/-- the inference path of the Delivery Risk Predictor page: encode the
input rows with the fitted encoders, coerce to float, and return
predict_proba(input)[0][1] * 100. -/
def predictRiskRow (m : RFModel) (encs : List (String × LabelEnc)) (input : DataFrame) :
    Except String Frac :=
  match encodeWithFitted encs input with
  | Except.error e => Except.error e
  | Except.ok d1 =>
    match astypeFloat d1 with
    | Except.error e => Except.error e
    | Except.ok d2 =>
      match d2.rows with
      | [] => Except.error "index 0 is out of bounds for axis 0 with size 0"
      | r :: _ =>
        match probaCol1 (rfProbaRow m (r.map valInt)) with
        | Except.error e => Except.error e
        | Except.ok p => Except.ok ⟨p.num * 100, p.den⟩

/- ----------------------------------------------------------------
   Object-level effects: which operations mutate the caller's table
   ---------------------------------------------------------------- -/

/-- a store of dataframe objects: fresh ids come from a counter. -/
def hupd (h : Nat → DataFrame) (i : Nat) (v : DataFrame) : Nat → DataFrame :=
  fun j => if j = i then v else h j

structure Store where
  next : Nat
  mem : Nat → DataFrame

def readSt (s : Store) (r : Nat) : DataFrame := s.mem r

def writeSt (s : Store) (r : Nat) (v : DataFrame) : Store := ⟨s.next, hupd s.mem r v⟩

def allocSt (s : Store) (v : DataFrame) : Store × Nat :=
  (⟨s.next + 1, hupd s.mem s.next v⟩, s.next)

/-- data_loader.standardize_columns at the object level: the statement
df.columns = ... assigns the header list of the argument object in
place, and the function returns that same object. -/
def standardizeColumnsSt (s : Store) (r : Nat) : Store × Nat :=
  (writeSt s r (standardizeHeaders (readSt s r)), r)

/-- data_loader.auto_rename_id at the object level: on a candidate
match, df.rename(..., inplace=True) mutates the argument object; in
both branches the argument object itself is returned. -/
def autoRenameIdSt (s : Store) (r : Nat) (possible : List String) (std : String) : Store × Nat :=
  match possible.find? (fun n => hasCol (readSt s r) n) with
  | some _ => (writeSt s r (autoRenameId (readSt s r) possible std), r)
  | none => (s, r)

/-- model.train_delay_model at the object level: df = df.copy()
allocates a fresh object (model.py line 9); the later in-place column
assignments hit that copy, and df_model is a further fresh copy
(line 23).  The returned value is the pure pipeline applied to the
caller's table value. -/
def trainDelayModelSt (s : Store) (r : Nat) : Store × Except String TrainResult :=
  let df0 := readSt s r
  let a1 := allocSt s df0
  let s2 := writeSt a1.1 a1.2 (deriveDelayed df0)
  let a2 := allocSt s2 (prepModelFrame df0).1
  (a2.1, trainDelayModel df0)

/- ----------------------------------------------------------------
   Relations used by the statements
   ---------------------------------------------------------------- -/

/-- the second row extends the first on the left. -/
def rowExt (a b : List Value) : Prop := ∃ t2, b = a ++ t2

/-- every row of the first table survives, possibly extended by new
columns, in the second. -/
def ExtRows (d d' : DataFrame) : Prop :=
  ∀ r ∈ d.rows, ∃ r', r' ∈ d'.rows ∧ rowExt r r'

/-- the common shape of the defaulting steps: the table is untouched
when the target column exists, else the step appends the target as a
full-length column. -/
def GuardedSet (f : DataFrame → DataFrame) (target : String) : Prop :=
  ∀ d, (hasCol d target = true ∧ f d = d) ∨
    (hasCol d target = false ∧ ∃ vs, vs.length = numRows d ∧ f d = setCol d target vs)

/- ----------------------------------------------------------------
   Concrete instances used by witnesses and counterexamples
   ---------------------------------------------------------------- -/

/-- seven small source tables with no column whose name contains "cost"
or "charge"; the second order has no delivery match, leaving a null. -/
def cSources : Sources :=
  ⟨⟨["Order ID"], [[Value.str "A001"], [Value.str "A002"]]⟩,
   ⟨["order_id", "actual_delivery_days"], [[Value.str "A001", Value.num 6]]⟩,
   ⟨["order_id"], [[Value.str "A001"], [Value.str "A002"]]⟩,
   ⟨["vehicle_id"], []⟩,
   ⟨["order_id"], [[Value.str "A001"], [Value.str "A002"]]⟩,
   ⟨["warehouse_id"], []⟩,
   ⟨["order_id"], [[Value.str "A001"], [Value.str "A002"]]⟩⟩

/-- a training table with both label classes. -/
def wdf : DataFrame :=
  ⟨["route_distance_km", "vehicle_capacity", "warehouse_load", "delivery_priority",
    "fuel_cost", "maintenance_cost", "actual_delivery_days", "expected_delivery_days"],
   [[Value.num 120, Value.num 1000, Value.num 50, Value.str "high", Value.num 500, Value.num 200, Value.num 6, Value.num 4],
    [Value.num 80, Value.num 900, Value.num 40, Value.str "low", Value.num 450, Value.num 180, Value.num 6, Value.num 4],
    [Value.num 200, Value.num 1100, Value.num 60, Value.str "high", Value.num 520, Value.num 210, Value.num 7, Value.num 4],
    [Value.num 150, Value.num 950, Value.num 55, Value.str "medium", Value.num 480, Value.num 190, Value.num 8, Value.num 4],
    [Value.num 60, Value.num 1000, Value.num 45, Value.str "low", Value.num 400, Value.num 150, Value.num 3, Value.num 5],
    [Value.num 90, Value.num 1050, Value.num 52, Value.str "medium", Value.num 430, Value.num 170, Value.num 3, Value.num 5],
    [Value.num 110, Value.num 980, Value.num 48, Value.str "high", Value.num 470, Value.num 185, Value.num 2, Value.num 5],
    [Value.num 70, Value.num 1020, Value.num 51, Value.str "low", Value.num 410, Value.num 160, Value.num 3, Value.num 5]]⟩

/-- a training table on which every row is on time: a single label
class remains after preparation. -/
def oneClassDf : DataFrame :=
  ⟨["route_distance_km", "vehicle_capacity", "warehouse_load", "delivery_priority",
    "fuel_cost", "maintenance_cost", "actual_delivery_days", "expected_delivery_days"],
   [[Value.num 120, Value.num 1000, Value.num 50, Value.str "high", Value.num 500, Value.num 200, Value.num 3, Value.num 5],
    [Value.num 80, Value.num 900, Value.num 40, Value.str "low", Value.num 450, Value.num 180, Value.num 3, Value.num 5],
    [Value.num 200, Value.num 1100, Value.num 60, Value.str "high", Value.num 520, Value.num 210, Value.num 2, Value.num 5],
    [Value.num 150, Value.num 950, Value.num 55, Value.str "medium", Value.num 480, Value.num 190, Value.num 3, Value.num 5]]⟩

/-- the successful training run on wdf. -/
def wTR : TrainResult :=
  match trainDelayModel wdf with
  | Except.ok t => t
  | Except.error _ => ⟨⟨0, [], [], []⟩, [], [], ⟨⟨0, 1⟩, ⟨0, 1⟩, [], []⟩⟩

/-- an encoder fitted on the priorities "high" and "low" only. -/
def wEnc : LabelEnc := ⟨[Value.str "high", Value.str "low"]⟩

/-- a feature row whose priority value was never seen by wEnc. -/
def wUnseenInput : DataFrame :=
  ⟨["route_distance_km", "vehicle_capacity", "warehouse_load", "delivery_priority",
    "fuel_cost", "maintenance_cost"],
   [[Value.num 120, Value.num 1000, Value.num 50, Value.str "urgent", Value.num 500, Value.num 200]]⟩

def wModel : RFModel := ⟨42, [0, 1], [[0], [1]], [0, 1]⟩

/-- a store holding one table whose header needs normalization. -/
def cStore : Store := ⟨1, fun _ => ⟨["Order ID"], [[Value.str "A001"]]⟩⟩

/- ----------------------------------------------------------------
   Basic lemmas: list access, column lookup, column assignment
   ---------------------------------------------------------------- -/

theorem nthD_map {α β : Type} (da : α) (db : β) (f : α → β) (l : List α) (i : Nat)
    (h : i < l.length) : nthD db (l.map f) i = f (nthD da l i) := by
  induction l generalizing i with
  | nil => exact absurd h (Nat.not_lt_zero i)
  | cons a t ih =>
    cases i with
    | zero => rfl
    | succ j => exact ih j (Nat.lt_of_succ_lt_succ h)

theorem nthD_zip {α β : Type} (da : α) (db : β) (l : List α) (m : List β) (i : Nat)
    (h1 : i < l.length) (h2 : i < m.length) :
    nthD (da, db) (l.zip m) i = (nthD da l i, nthD db m i) := by
  induction l generalizing m i with
  | nil => exact absurd h1 (Nat.not_lt_zero i)
  | cons a t ih =>
    cases m with
    | nil => exact absurd h2 (Nat.not_lt_zero i)
    | cons b t2 =>
      cases i with
      | zero => rfl
      | succ j => exact ih t2 j (Nat.lt_of_succ_lt_succ h1) (Nat.lt_of_succ_lt_succ h2)

theorem nthD_append_lt {α : Type} (da : α) (l m : List α) (i : Nat) (h : i < l.length) :
    nthD da (l ++ m) i = nthD da l i := by
  induction l generalizing i with
  | nil => exact absurd h (Nat.not_lt_zero i)
  | cons a t ih =>
    cases i with
    | zero => rfl
    | succ j => exact ih j (Nat.lt_of_succ_lt_succ h)

theorem nthD_append_self {α : Type} (da : α) (l : List α) (v : α) :
    nthD da (l ++ [v]) l.length = v := by
  induction l with
  | nil => rfl
  | cons a t ih => exact ih

theorem length_setNth (l : List Value) (i : Nat) (v : Value) :
    (setNth l i v).length = l.length := by
  induction l generalizing i with
  | nil => rfl
  | cons a t ih =>
    cases i with
    | zero => rfl
    | succ j => simpa [setNth] using ih j

theorem nthV_setNth_self (l : List Value) (i : Nat) (v : Value) (h : i < l.length) :
    nthV (setNth l i v) i = v := by
  induction l generalizing i with
  | nil => exact absurd h (Nat.not_lt_zero i)
  | cons a t ih =>
    cases i with
    | zero => rfl
    | succ j => exact ih j (Nat.lt_of_succ_lt_succ h)

theorem nthV_setNth_ne (l : List Value) (i j : Nat) (v : Value) (h : i ≠ j) :
    nthV (setNth l j v) i = nthV l i := by
  induction l generalizing i j with
  | nil => rfl
  | cons a t ih =>
    cases j with
    | zero =>
      cases i with
      | zero => exact absurd rfl h
      | succ i' => rfl
    | succ j' =>
      cases i with
      | zero => rfl
      | succ i' => exact ih i' j' (fun hh => h (congrArg Nat.succ hh))

theorem idxOf?_isSome_iff_mem {α : Type} [DecidableEq α] (l : List α) (a : α) :
    (idxOf? l a).isSome = true ↔ a ∈ l := by
  induction l with
  | nil => simp [idxOf?]
  | cons c t ih =>
    by_cases h : c = a
    · subst h; simp [idxOf?]
    · simp only [idxOf?, if_neg h, List.mem_cons]
      cases hc : idxOf? t a with
      | none => simp [hc] at ih; simp [ih, Ne.symm h]
      | some i => simp [hc] at ih; simp [ih, Option.isSome]

theorem idxOf?_lt_length {α : Type} [DecidableEq α] (l : List α) (a : α) (i : Nat)
    (h : idxOf? l a = some i) : i < l.length := by
  induction l generalizing i with
  | nil => simp [idxOf?] at h
  | cons c t ih =>
    simp only [List.length_cons]
    by_cases hc : c = a
    · simp [idxOf?, hc] at h; omega
    · simp only [idxOf?, if_neg hc] at h
      cases ht : idxOf? t a with
      | none => simp [ht] at h
      | some j =>
        simp [ht] at h
        have := ih j ht
        omega

theorem idxOf?_nthD {α : Type} [DecidableEq α] (da : α) (l : List α) (a : α) (i : Nat)
    (h : idxOf? l a = some i) : nthD da l i = a := by
  induction l generalizing i with
  | nil => simp [idxOf?] at h
  | cons c t ih =>
    by_cases hc : c = a
    · simp [idxOf?, hc] at h; subst h; simpa [nthD] using hc
    · simp only [idxOf?, if_neg hc] at h
      cases ht : idxOf? t a with
      | none => simp [ht] at h
      | some j =>
        simp [ht] at h
        subst h
        exact ih j ht

theorem idxOf?_append_left {α : Type} [DecidableEq α] (l m : List α) (a : α) (i : Nat)
    (h : idxOf? l a = some i) : idxOf? (l ++ m) a = some i := by
  induction l generalizing i with
  | nil => simp [idxOf?] at h
  | cons c t ih =>
    by_cases hc : c = a
    · simp [idxOf?, hc] at h ⊢; exact h
    · simp only [idxOf?, if_neg hc] at h ⊢
      cases ht : idxOf? t a with
      | none => simp [ht] at h
      | some j =>
        simp [ht] at h
        simp [ih j ht, h]

theorem idxOf?_none_append_single {α : Type} [DecidableEq α] (l : List α) (a : α)
    (h : idxOf? l a = none) : idxOf? (l ++ [a]) a = some l.length := by
  induction l with
  | nil => simp [idxOf?]
  | cons c t ih =>
    by_cases hc : c = a
    · simp [idxOf?, hc] at h
    · simp only [idxOf?, if_neg hc] at h ⊢
      cases ht : idxOf? t a with
      | none => simp [ih ht, List.length_cons]
      | some j => simp [ht] at h

theorem idxOf?_none_append_ne {α : Type} [DecidableEq α] (l : List α) (a b : α)
    (h : idxOf? l a = none) (hne : a ≠ b) : idxOf? (l ++ [b]) a = none := by
  induction l with
  | nil => simp [idxOf?, Ne.symm hne]
  | cons c t ih =>
    by_cases hc : c = a
    · simp [idxOf?, hc] at h
    · simp only [idxOf?, if_neg hc] at h ⊢
      cases ht : idxOf? t a with
      | none => simp [ih ht]
      | some j => simp [ht] at h

theorem idxOf?_ne_of_distinct {α : Type} [DecidableEq α] (l : List α) (a b : α) (i j : Nat)
    (ha : idxOf? l a = some i) (hb : idxOf? l b = some j) (hab : a ≠ b) : i ≠ j := by
  intro he
  subst he
  exact hab ((idxOf?_nthD a l a i ha).symm.trans (idxOf?_nthD a l b i hb))

theorem wellFormedB_iff (d : DataFrame) :
    wellFormedB d = true ↔ ∀ r ∈ d.rows, r.length = d.cols.length := by
  simp [wellFormedB, List.all_eq_true]

theorem getCol_length_of_hasCol (d : DataFrame) (c : String) (h : hasCol d c = true) :
    (getCol d c).length = numRows d := by
  unfold hasCol at h
  cases hc : colIdx? d.cols c with
  | none => rw [hc] at h; simp at h
  | some i => simp [getCol, hc, numRows]

theorem getCol_eq_some (d : DataFrame) (c : String) (i : Nat)
    (h : colIdx? d.cols c = some i) :
    getCol d c = d.rows.map (fun r => nthV r i) := by
  unfold getCol
  rw [h]

theorem getCol_eq_none (d : DataFrame) (c : String) (h : colIdx? d.cols c = none) :
    getCol d c = [] := by
  unfold getCol
  rw [h]

theorem map_zip_setNth_self (rows : List (List Value)) (vs : List Value) (j : Nat)
    (hl : vs.length = rows.length) (hb : ∀ r ∈ rows, j < r.length) :
    ((rows.zip vs).map (fun p => nthV (setNth p.1 j p.2) j)) = vs := by
  induction rows generalizing vs with
  | nil => cases vs with | nil => rfl | cons v vt => simp at hl
  | cons r rs ih =>
    cases vs with
    | nil => simp at hl
    | cons v vt =>
      simp only [List.zip_cons_cons, List.map_cons]
      rw [nthV_setNth_self _ _ _ (hb r (List.mem_cons_self r rs))]
      rw [ih vt (by simpa using hl) (fun r2 h2 => hb r2 (List.mem_cons_of_mem _ h2))]

theorem map_zip_setNth_ne (rows : List (List Value)) (vs : List Value) (i j : Nat)
    (hne : i ≠ j) (hl : vs.length = rows.length) :
    ((rows.zip vs).map (fun p => nthV (setNth p.1 j p.2) i)) = rows.map (fun r => nthV r i) := by
  induction rows generalizing vs with
  | nil => cases vs with | nil => rfl | cons v vt => simp at hl
  | cons r rs ih =>
    cases vs with
    | nil => simp at hl
    | cons v vt =>
      simp only [List.zip_cons_cons, List.map_cons]
      rw [nthV_setNth_ne _ _ _ _ hne]
      rw [ih vt (by simpa using hl)]

theorem map_zip_append_nth_len (rows : List (List Value)) (vs : List Value) (n : Nat)
    (hl : vs.length = rows.length) (hb : ∀ r ∈ rows, r.length = n) :
    ((rows.zip vs).map (fun p => nthV (p.1 ++ [p.2]) n)) = vs := by
  induction rows generalizing vs with
  | nil => cases vs with | nil => rfl | cons v vt => simp at hl
  | cons r rs ih =>
    cases vs with
    | nil => simp at hl
    | cons v vt =>
      simp only [List.zip_cons_cons, List.map_cons]
      have hr : r.length = n := hb r (List.mem_cons_self r rs)
      rw [show nthV (r ++ [v]) n = v from hr ▸ nthD_append_self Value.null r v]
      rw [ih vt (by simpa using hl) (fun r2 h2 => hb r2 (List.mem_cons_of_mem _ h2))]

theorem map_zip_append_nth_lt (rows : List (List Value)) (vs : List Value) (i n : Nat)
    (hl : vs.length = rows.length) (hb : ∀ r ∈ rows, r.length = n) (hi : i < n) :
    ((rows.zip vs).map (fun p => nthV (p.1 ++ [p.2]) i)) = rows.map (fun r => nthV r i) := by
  induction rows generalizing vs with
  | nil => cases vs with | nil => rfl | cons v vt => simp at hl
  | cons r rs ih =>
    cases vs with
    | nil => simp at hl
    | cons v vt =>
      simp only [List.zip_cons_cons, List.map_cons]
      have hr : r.length = n := hb r (List.mem_cons_self r rs)
      rw [show nthV (r ++ [v]) i = nthV r i from nthD_append_lt Value.null r [v] i (hr ▸ hi)]
      rw [ih vt (by simpa using hl) (fun r2 h2 => hb r2 (List.mem_cons_of_mem _ h2))]

theorem cols_setCol_present (d : DataFrame) (c : String) (vs : List Value)
    (h : hasCol d c = true) : (setCol d c vs).cols = d.cols := by
  unfold hasCol at h
  cases hc : colIdx? d.cols c with
  | none => rw [hc] at h; simp at h
  | some i => simp [setCol, hc]

theorem cols_setCol_absent (d : DataFrame) (c : String) (vs : List Value)
    (h : hasCol d c = false) : (setCol d c vs).cols = d.cols ++ [c] := by
  unfold hasCol at h
  cases hc : colIdx? d.cols c with
  | none => simp [setCol, hc]
  | some i => rw [hc] at h; simp at h

theorem hasCol_setCol_self (d : DataFrame) (c : String) (vs : List Value) :
    hasCol (setCol d c vs) c = true := by
  cases hc : hasCol d c with
  | true => simp [hasCol, cols_setCol_present d c vs hc]; simpa [hasCol] using hc
  | false =>
    have habs : colIdx? d.cols c = none := by
      unfold hasCol at hc
      cases h2 : colIdx? d.cols c with
      | none => rfl
      | some i => rw [h2] at hc; simp at hc
    simp [hasCol, cols_setCol_absent d c vs hc, colIdx?,
      idxOf?_none_append_single d.cols c habs]

theorem hasCol_setCol_of_hasCol (d : DataFrame) (a c : String) (vs : List Value)
    (ha : hasCol d a = true) : hasCol (setCol d c vs) a = true := by
  have hsome : ∃ i, colIdx? d.cols a = some i := by
    unfold hasCol at ha
    cases h2 : colIdx? d.cols a with
    | none => rw [h2] at ha; simp at ha
    | some i => exact ⟨i, rfl⟩
  obtain ⟨i, hi⟩ := hsome
  cases hc : hasCol d c with
  | true =>
    unfold hasCol
    rw [cols_setCol_present d c vs hc]
    rw [hi]
    rfl
  | false =>
    unfold hasCol
    rw [cols_setCol_absent d c vs hc]
    rw [show colIdx? (d.cols ++ [c]) a = some i from idxOf?_append_left _ _ _ _ hi]
    rfl

theorem hasCol_setCol_false_ne (d : DataFrame) (a c : String) (vs : List Value)
    (ha : hasCol d a = false) (hne : a ≠ c) : hasCol (setCol d c vs) a = false := by
  have hnone : colIdx? d.cols a = none := by
    unfold hasCol at ha
    cases h2 : colIdx? d.cols a with
    | none => rfl
    | some i => rw [h2] at ha; simp at ha
  cases hc : hasCol d c with
  | true =>
    unfold hasCol
    rw [cols_setCol_present d c vs hc]
    rw [hnone]
    rfl
  | false =>
    unfold hasCol
    rw [cols_setCol_absent d c vs hc]
    rw [show colIdx? (d.cols ++ [c]) a = none from idxOf?_none_append_ne _ _ _ hnone hne]
    rfl

theorem numRows_setCol (d : DataFrame) (c : String) (vs : List Value)
    (hl : vs.length = numRows d) : numRows (setCol d c vs) = numRows d := by
  unfold numRows at hl ⊢
  cases hc : colIdx? d.cols c with
  | some i => simp [setCol, hc, List.length_zip, hl]
  | none => simp [setCol, hc, List.length_zip, hl]

theorem wellFormedB_setCol (d : DataFrame) (c : String) (vs : List Value)
    (hw : wellFormedB d = true) (_hl : vs.length = numRows d) :
    wellFormedB (setCol d c vs) = true := by
  rw [wellFormedB_iff] at hw ⊢
  cases hc : colIdx? d.cols c with
  | some i =>
    intro r hr
    simp only [setCol, hc, List.mem_map] at hr
    obtain ⟨p, hp, hpe⟩ := hr
    have hm := List.of_mem_zip hp
    subst hpe
    simp [setCol, hc, length_setNth, hw p.1 hm.1]
  | none =>
    intro r hr
    simp only [setCol, hc, List.mem_map] at hr
    obtain ⟨p, hp, hpe⟩ := hr
    have hm := List.of_mem_zip hp
    subst hpe
    simp [setCol, hc, hw p.1 hm.1]

theorem getCol_setCol_self (d : DataFrame) (c : String) (vs : List Value)
    (hw : wellFormedB d = true) (hl : vs.length = numRows d) :
    getCol (setCol d c vs) c = vs := by
  rw [wellFormedB_iff] at hw
  cases hc : colIdx? d.cols c with
  | some i =>
    have hcol : hasCol d c = true := by unfold hasCol; rw [hc]; rfl
    have h1 : colIdx? (setCol d c vs).cols c = some i := by
      rw [cols_setCol_present d c vs hcol]; exact hc
    have hrows : (setCol d c vs).rows = (d.rows.zip vs).map (fun p => setNth p.1 i p.2) := by
      simp [setCol, hc]
    rw [getCol_eq_some _ c i h1, hrows, List.map_map]
    exact map_zip_setNth_self d.rows vs i hl
      (fun r hr => (hw r hr) ▸ idxOf?_lt_length d.cols c i hc)
  | none =>
    have hcol : hasCol d c = false := by unfold hasCol; rw [hc]; rfl
    have h1 : colIdx? (setCol d c vs).cols c = some d.cols.length := by
      rw [cols_setCol_absent d c vs hcol]
      exact idxOf?_none_append_single d.cols c hc
    have hrows : (setCol d c vs).rows = (d.rows.zip vs).map (fun p => p.1 ++ [p.2]) := by
      simp [setCol, hc]
    rw [getCol_eq_some _ c _ h1, hrows, List.map_map]
    exact map_zip_append_nth_len d.rows vs d.cols.length hl (fun r hr => hw r hr)

theorem getCol_setCol_ne (d : DataFrame) (a c : String) (vs : List Value)
    (hw : wellFormedB d = true) (hl : vs.length = numRows d)
    (ha : hasCol d a = true) (hne : a ≠ c) :
    getCol (setCol d c vs) a = getCol d a := by
  rw [wellFormedB_iff] at hw
  have hsome : ∃ i, colIdx? d.cols a = some i := by
    unfold hasCol at ha
    cases h2 : colIdx? d.cols a with
    | none => rw [h2] at ha; simp at ha
    | some i => exact ⟨i, rfl⟩
  obtain ⟨i, hi⟩ := hsome
  cases hc : colIdx? d.cols c with
  | some j =>
    have hcol : hasCol d c = true := by unfold hasCol; rw [hc]; rfl
    have hij : i ≠ j := idxOf?_ne_of_distinct d.cols a c i j hi hc hne
    have h1 : colIdx? (setCol d c vs).cols a = some i := by
      rw [cols_setCol_present d c vs hcol]; exact hi
    have hrows : (setCol d c vs).rows = (d.rows.zip vs).map (fun p => setNth p.1 j p.2) := by
      simp [setCol, hc]
    rw [getCol_eq_some _ a i h1, hrows, List.map_map, getCol_eq_some d a i hi]
    exact map_zip_setNth_ne d.rows vs i j hij hl
  | none =>
    have hcol : hasCol d c = false := by unfold hasCol; rw [hc]; rfl
    have h1 : colIdx? (setCol d c vs).cols a = some i := by
      rw [cols_setCol_absent d c vs hcol]
      exact idxOf?_append_left _ _ _ _ hi
    have hrows : (setCol d c vs).rows = (d.rows.zip vs).map (fun p => p.1 ++ [p.2]) := by
      simp [setCol, hc]
    rw [getCol_eq_some _ a i h1, hrows, List.map_map, getCol_eq_some d a i hi]
    exact map_zip_append_nth_lt d.rows vs i d.cols.length hl (fun r hr => hw r hr)
      (idxOf?_lt_length d.cols a i hi)

/- ----------------------------------------------------------------
   The defaulting steps share the guarded-set shape
   ---------------------------------------------------------------- -/

theorem GuardedSet.hasCol_target {f : DataFrame → DataFrame} {t : String}
    (h : GuardedSet f t) (d : DataFrame) : hasCol (f d) t = true := by
  rcases h d with ⟨ht, he⟩ | ⟨_, vs, _, he⟩
  · rw [he]; exact ht
  · rw [he]; exact hasCol_setCol_self d t vs

theorem GuardedSet.hasCol_mono {f : DataFrame → DataFrame} {t : String}
    (h : GuardedSet f t) (d : DataFrame) (c : String) (hc : hasCol d c = true) :
    hasCol (f d) c = true := by
  rcases h d with ⟨_, he⟩ | ⟨_, vs, _, he⟩
  · rw [he]; exact hc
  · rw [he]; exact hasCol_setCol_of_hasCol d c t vs hc

theorem GuardedSet.hasCol_not_new {f : DataFrame → DataFrame} {t : String}
    (h : GuardedSet f t) (d : DataFrame) (c : String) (hc : hasCol d c = false)
    (hne : c ≠ t) : hasCol (f d) c = false := by
  rcases h d with ⟨_, he⟩ | ⟨_, vs, _, he⟩
  · rw [he]; exact hc
  · rw [he]; exact hasCol_setCol_false_ne d c t vs hc hne

theorem GuardedSet.wf {f : DataFrame → DataFrame} {t : String}
    (h : GuardedSet f t) (d : DataFrame) (hw : wellFormedB d = true) :
    wellFormedB (f d) = true := by
  rcases h d with ⟨_, he⟩ | ⟨_, vs, hl, he⟩
  · rw [he]; exact hw
  · rw [he]; exact wellFormedB_setCol d t vs hw hl

theorem GuardedSet.numRows_eq {f : DataFrame → DataFrame} {t : String}
    (h : GuardedSet f t) (d : DataFrame) : numRows (f d) = numRows d := by
  rcases h d with ⟨_, he⟩ | ⟨_, vs, hl, he⟩
  · rw [he]
  · rw [he]; exact numRows_setCol d t vs hl

theorem GuardedSet.getCol_pres {f : DataFrame → DataFrame} {t : String}
    (h : GuardedSet f t) (d : DataFrame) (c : String) (hw : wellFormedB d = true)
    (hc : hasCol d c = true) : getCol (f d) c = getCol d c := by
  rcases h d with ⟨_, he⟩ | ⟨ht, vs, hl, he⟩
  · rw [he]
  · rw [he]
    exact getCol_setCol_ne d c t vs hw hl hc
      (fun hct => by rw [hct] at hc; rw [hc] at ht; simp at ht)

theorem GuardedSet.step {f : DataFrame → DataFrame} {t : String}
    (h : GuardedSet f t) (d : DataFrame) (c : String) (hw : wellFormedB d = true)
    (hc : hasCol d c = true) :
    getCol (f d) c = getCol d c ∧ hasCol (f d) c = true ∧ wellFormedB (f d) = true :=
  ⟨h.getCol_pres d c hw hc, h.hasCol_mono d c hc, h.wf d hw⟩

theorem guardedSet_dRoute : GuardedSet dRoute "route_distance_km" := by
  intro d
  by_cases h1 : hasCol d "route_distance_km" = true
  · exact Or.inl ⟨h1, by unfold dRoute; rw [if_pos h1]⟩
  · refine Or.inr ⟨by simpa using h1, ?_⟩
    by_cases h2 : hasCol d "distance_km" = true
    · exact ⟨getCol d "distance_km", getCol_length_of_hasCol d _ h2,
        by unfold dRoute; rw [if_neg h1, if_pos h2]⟩
    · exact ⟨d.rows.map (fun _ => Value.num 100), by simp [numRows],
        by unfold dRoute; rw [if_neg h1, if_neg h2]; rfl⟩

theorem guardedSet_dVehicleCap : GuardedSet dVehicleCap "vehicle_capacity" := by
  intro d
  by_cases h1 : hasCol d "vehicle_capacity" = true
  · exact Or.inl ⟨h1, by unfold dVehicleCap; rw [if_pos h1]⟩
  · exact Or.inr ⟨by simpa using h1,
      ⟨d.rows.map (fun _ => Value.num 1000), by simp [numRows],
        by unfold dVehicleCap; rw [if_neg h1]; rfl⟩⟩

theorem guardedSet_dWarehouseLoad : GuardedSet dWarehouseLoad "warehouse_load" := by
  intro d
  by_cases h1 : hasCol d "warehouse_load" = true
  · exact Or.inl ⟨h1, by unfold dWarehouseLoad; rw [if_pos h1]⟩
  · exact Or.inr ⟨by simpa using h1,
      ⟨d.rows.map (fun _ => Value.num 50), by simp [numRows],
        by unfold dWarehouseLoad; rw [if_neg h1]; rfl⟩⟩

theorem guardedSet_dPriority : GuardedSet dPriority "delivery_priority" := by
  intro d
  by_cases h1 : hasCol d "delivery_priority" = true
  · exact Or.inl ⟨h1, by unfold dPriority; rw [if_pos h1]⟩
  · refine Or.inr ⟨by simpa using h1, ?_⟩
    by_cases h2 : hasCol d "priority" = true
    · exact ⟨getCol d "priority", getCol_length_of_hasCol d _ h2,
        by unfold dPriority; rw [if_neg h1, if_pos h2]⟩
    · exact ⟨d.rows.map (fun _ => Value.str "medium"), by simp [numRows],
        by unfold dPriority; rw [if_neg h1, if_neg h2]; rfl⟩

theorem guardedSet_dFuelCost : GuardedSet dFuelCost "fuel_cost" := by
  intro d
  by_cases h1 : hasCol d "fuel_cost" = true
  · exact Or.inl ⟨h1, by unfold dFuelCost; rw [if_pos h1]⟩
  · exact Or.inr ⟨by simpa using h1,
      ⟨d.rows.map (fun _ => Value.num 500), by simp [numRows],
        by unfold dFuelCost; rw [if_neg h1]; rfl⟩⟩

theorem guardedSet_dMaintCost : GuardedSet dMaintCost "maintenance_cost" := by
  intro d
  by_cases h1 : hasCol d "maintenance_cost" = true
  · exact Or.inl ⟨h1, by unfold dMaintCost; rw [if_pos h1]⟩
  · refine Or.inr ⟨by simpa using h1, ?_⟩
    by_cases h2 : hasCol d "vehicle_maintenance" = true
    · exact ⟨getCol d "vehicle_maintenance", getCol_length_of_hasCol d _ h2,
        by unfold dMaintCost; rw [if_neg h1, if_pos h2]⟩
    · exact ⟨d.rows.map (fun _ => Value.num 200), by simp [numRows],
        by unfold dMaintCost; rw [if_neg h1, if_neg h2]; rfl⟩

theorem guardedSet_dActualDays : GuardedSet dActualDays "actual_delivery_days" := by
  intro d
  by_cases h1 : hasCol d "actual_delivery_days" = true
  · exact Or.inl ⟨h1, by unfold dActualDays; rw [if_pos h1]⟩
  · exact Or.inr ⟨by simpa using h1,
      ⟨d.rows.map (fun _ => Value.num 5), by simp [numRows],
        by unfold dActualDays; rw [if_neg h1]; rfl⟩⟩

theorem guardedSet_dExpectedDays : GuardedSet dExpectedDays "expected_delivery_days" := by
  intro d
  by_cases h1 : hasCol d "expected_delivery_days" = true
  · exact Or.inl ⟨h1, by unfold dExpectedDays; rw [if_pos h1]⟩
  · refine Or.inr ⟨by simpa using h1, ?_⟩
    by_cases h2 : hasCol d "promised_delivery_days" = true
    · exact ⟨getCol d "promised_delivery_days", getCol_length_of_hasCol d _ h2,
        by unfold dExpectedDays; rw [if_neg h1, if_pos h2]⟩
    · exact ⟨d.rows.map (fun _ => Value.num 3), by simp [numRows],
        by unfold dExpectedDays; rw [if_neg h1, if_neg h2]; rfl⟩

theorem guardedSet_dTotalCost : GuardedSet dTotalCost "total_cost" := by
  intro d
  by_cases h1 : hasCol d "total_cost" = true
  · exact Or.inl ⟨h1, by unfold dTotalCost; rw [if_pos h1]⟩
  · refine Or.inr ⟨by simpa using h1, ?_⟩
    cases hcc : costCols d with
    | nil =>
      exact ⟨d.rows.map (fun _ => Value.num 1000), by simp [numRows],
        by unfold dTotalCost; rw [if_neg h1, hcc]; rfl⟩
    | cons c0 cs =>
      exact ⟨rowSums d (c0 :: cs), by simp [rowSums, numRows],
        by unfold dTotalCost; rw [if_neg h1, hcc]⟩

theorem guardedSet_dFeedbackScore : GuardedSet dFeedbackScore "feedback_score" := by
  intro d
  by_cases h1 : hasCol d "feedback_score" = true
  · exact Or.inl ⟨h1, by unfold dFeedbackScore; rw [if_pos h1]⟩
  · refine Or.inr ⟨by simpa using h1, ?_⟩
    by_cases h2 : hasCol d "rating" = true
    · exact ⟨getCol d "rating", getCol_length_of_hasCol d _ h2,
        by unfold dFeedbackScore; rw [if_neg h1, if_pos h2]⟩
    · exact ⟨d.rows.map (fun _ => Value.num 3), by simp [numRows],
        by unfold dFeedbackScore; rw [if_neg h1, if_neg h2]; rfl⟩

theorem guardedSet_dFuelRate : GuardedSet dFuelRate "fuel_consumption_rate" := by
  intro d
  by_cases h1 : hasCol d "fuel_consumption_rate" = true
  · exact Or.inl ⟨h1, by unfold dFuelRate; rw [if_pos h1]⟩
  · refine Or.inr ⟨by simpa using h1, ?_⟩
    by_cases h2 : hasCol d "fuel_consumption_l" = true
    · exact ⟨getCol d "fuel_consumption_l", getCol_length_of_hasCol d _ h2,
        by unfold dFuelRate; rw [if_neg h1, if_pos h2]⟩
    · exact ⟨d.rows.map (fun _ => Value.num 5), by simp [numRows],
        by unfold dFuelRate; rw [if_neg h1, if_neg h2]; rfl⟩

/- ----------------------------------------------------------------
   Row preservation through the pipeline
   ---------------------------------------------------------------- -/

theorem rowExt_refl (r : List Value) : rowExt r r := ⟨[], (List.append_nil r).symm⟩

theorem rowExt_append (r t : List Value) : rowExt r (r ++ t) := ⟨t, rfl⟩

theorem rowExt_trans {a b c : List Value} (h1 : rowExt a b) (h2 : rowExt b c) : rowExt a c := by
  obtain ⟨t1, e1⟩ := h1
  obtain ⟨t2, e2⟩ := h2
  exact ⟨t1 ++ t2, by rw [e2, e1, List.append_assoc]⟩

theorem extRows_refl (d : DataFrame) : ExtRows d d :=
  fun r hr => ⟨r, hr, rowExt_refl r⟩

theorem extRows_trans {d1 d2 d3 : DataFrame} (h12 : ExtRows d1 d2) (h23 : ExtRows d2 d3) :
    ExtRows d1 d3 := by
  intro r hr
  obtain ⟨r2, hr2, he2⟩ := h12 r hr
  obtain ⟨r3, hr3, he3⟩ := h23 r2 hr2
  exact ⟨r3, hr3, rowExt_trans he2 he3⟩

theorem extRows_of_rows_eq {d d' : DataFrame} (h : d'.rows = d.rows) : ExtRows d d' :=
  fun r hr => ⟨r, by rw [h]; exact hr, rowExt_refl r⟩

theorem zip_append_mem_ext (rows : List (List Value)) (vs : List Value)
    (hl : vs.length = rows.length) (r : List Value) (hr : r ∈ rows) :
    ∃ r', r' ∈ (rows.zip vs).map (fun p => p.1 ++ [p.2]) ∧ rowExt r r' := by
  induction rows generalizing vs with
  | nil => cases hr
  | cons a t ih =>
    cases vs with
    | nil => simp at hl
    | cons v vt =>
      simp only [List.zip_cons_cons, List.map_cons]
      rcases List.mem_cons.1 hr with he | ht
      · subst he
        exact ⟨r ++ [v], List.mem_cons_self _ _, rowExt_append r [v]⟩
      · obtain ⟨r', hr', hext⟩ := ih vt (by simpa using hl) ht
        exact ⟨r', List.mem_cons_of_mem _ hr', hext⟩

theorem extRows_setCol_absent (d : DataFrame) (c : String) (vs : List Value)
    (hc : hasCol d c = false) (hl : vs.length = numRows d) :
    ExtRows d (setCol d c vs) := by
  have hnone : colIdx? d.cols c = none := by
    unfold hasCol at hc
    cases h2 : colIdx? d.cols c with
    | none => rfl
    | some i => rw [h2] at hc; simp at hc
  intro r hr
  have hrows : (setCol d c vs).rows = (d.rows.zip vs).map (fun p => p.1 ++ [p.2]) := by
    simp [setCol, hnone]
  rw [hrows]
  exact zip_append_mem_ext d.rows vs hl r hr

theorem GuardedSet.extRows {f : DataFrame → DataFrame} {t : String}
    (h : GuardedSet f t) (d : DataFrame) : ExtRows d (f d) := by
  rcases h d with ⟨_, he⟩ | ⟨ht, vs, hl, he⟩
  · rw [he]; exact extRows_refl d
  · rw [he]; exact extRows_setCol_absent d t vs ht hl

theorem extRows_applyDefaults (d : DataFrame) : ExtRows d (applyDefaults d) := by
  unfold applyDefaults preTotal
  exact extRows_trans (extRows_trans (extRows_trans (extRows_trans (extRows_trans
    (extRows_trans (extRows_trans (extRows_trans (extRows_trans (extRows_trans
    (guardedSet_dRoute.extRows d) (guardedSet_dVehicleCap.extRows _))
    (guardedSet_dWarehouseLoad.extRows _)) (guardedSet_dPriority.extRows _))
    (guardedSet_dFuelCost.extRows _)) (guardedSet_dMaintCost.extRows _))
    (guardedSet_dActualDays.extRows _)) (guardedSet_dExpectedDays.extRows _))
    (guardedSet_dTotalCost.extRows _)) (guardedSet_dFeedbackScore.extRows _))
    (guardedSet_dFuelRate.extRows _)

theorem extRows_leftMerge (l r : DataFrame) (k : String) : ExtRows l (leftMerge l r k) := by
  intro row hrow
  have hrows : (leftMerge l r k).rows =
      (l.rows.map (fun lr =>
        match r.rows.filter (fun rr => keyMatch (nthV lr ((colIdx? l.cols k).getD 0))
            (nthV rr ((colIdx? r.cols k).getD 0))) with
        | [] => [lr ++ List.replicate (dropNth r.cols ((colIdx? r.cols k).getD 0)).length Value.null]
        | ms => ms.map (fun rr => lr ++ dropNth rr ((colIdx? r.cols k).getD 0)))).flatten := rfl
  rw [hrows]
  cases hf : r.rows.filter (fun rr => keyMatch (nthV row ((colIdx? l.cols k).getD 0))
      (nthV rr ((colIdx? r.cols k).getD 0))) with
  | nil =>
    refine ⟨row ++ List.replicate (dropNth r.cols ((colIdx? r.cols k).getD 0)).length Value.null,
      ?_, rowExt_append _ _⟩
    refine List.mem_flatten.2 ⟨_, List.mem_map_of_mem _ hrow, ?_⟩
    rw [hf]
    exact List.mem_singleton.2 rfl
  | cons m mt =>
    refine ⟨row ++ dropNth m ((colIdx? r.cols k).getD 0), ?_, rowExt_append _ _⟩
    refine List.mem_flatten.2 ⟨_, List.mem_map_of_mem _ hrow, ?_⟩
    rw [hf]
    exact List.mem_map_of_mem _ (List.mem_cons_self m mt)

theorem rows_standardizeHeaders (d : DataFrame) : (standardizeHeaders d).rows = d.rows := rfl

theorem rows_autoRenameId (d : DataFrame) (p : List String) (std : String) :
    (autoRenameId d p std).rows = d.rows := by
  unfold autoRenameId
  cases p.find? (fun n => hasCol d n) <;> rfl

theorem deriveCustomerId_length (d : DataFrame) (hseg : hasCol d "customer_segment" = true)
    (hoid : hasCol d "order_id" = true) : (deriveCustomerId d).length = numRows d := by
  unfold deriveCustomerId
  rw [List.length_map, List.length_zip, getCol_length_of_hasCol d _ hseg,
      getCol_length_of_hasCol d _ hoid, Nat.min_self]

theorem extRows_ordersPrepped (s : Sources) (hkey : hasCol (ordersKeyed s) "order_id" = true) :
    ExtRows (ordersKeyed s) (ordersPrepped s) := by
  unfold ordersPrepped
  by_cases hcond : (hasCol (ordersKeyed s) "customer_segment" &&
      !hasCol (ordersKeyed s) "customer_id") = true
  · rw [if_pos hcond]
    have hand := hcond
    rw [Bool.and_eq_true] at hand
    have hseg : hasCol (ordersKeyed s) "customer_segment" = true := hand.1
    have hnocust : hasCol (ordersKeyed s) "customer_id" = false := by
      have := hand.2
      simpa using this
    exact extRows_setCol_absent _ _ _ hnocust
      (deriveCustomerId_length (ordersKeyed s) hseg hkey)
  · rw [if_neg hcond]
    exact extRows_refl _

theorem extRows_fuseSources (s : Sources) : ExtRows (ordersPrepped s) (fuseSources s) := by
  have h3 : ExtRows (ordersPrepped s) (fuse3 s) :=
    extRows_trans (extRows_trans
      (extRows_leftMerge (ordersPrepped s) (deliveryKeyed s) "order_id")
      (extRows_leftMerge _ (routesKeyed s) "order_id"))
      (extRows_leftMerge _ (costsKeyed s) "order_id")
  unfold fuseSources
  by_cases hc : hasCol (fuse3 s) "customer_id" = true
  · rw [if_pos hc]
    exact extRows_trans h3 (extRows_leftMerge _ _ _)
  · rw [if_neg hc]
    exact extRows_trans h3 (extRows_leftMerge _ _ _)

/- ----------------------------------------------------------------
   Composite facts about the defaulting chain
   ---------------------------------------------------------------- -/

theorem load_all_data_eq (s : Sources) :
    load_all_data s = dFuelRate (dFeedbackScore (dTotalCost (preTotal (fuseSources s)))) := rfl

theorem hasCol_iff_mem (d : DataFrame) (c : String) : hasCol d c = true ↔ c ∈ d.cols :=
  idxOf?_isSome_iff_mem d.cols c

theorem wf_preTotal (d : DataFrame) (hw : wellFormedB d = true) :
    wellFormedB (preTotal d) = true := by
  unfold preTotal
  exact guardedSet_dExpectedDays.wf _ (guardedSet_dActualDays.wf _
    (guardedSet_dMaintCost.wf _ (guardedSet_dFuelCost.wf _ (guardedSet_dPriority.wf _
    (guardedSet_dWarehouseLoad.wf _ (guardedSet_dVehicleCap.wf _
    (guardedSet_dRoute.wf _ hw)))))))

theorem hasCol_preTotal_fuel (d : DataFrame) : hasCol (preTotal d) "fuel_cost" = true := by
  unfold preTotal
  exact guardedSet_dExpectedDays.hasCol_mono _ _ (guardedSet_dActualDays.hasCol_mono _ _
    (guardedSet_dMaintCost.hasCol_mono _ _ (guardedSet_dFuelCost.hasCol_target _)))

theorem hasCol_total_preTotal_false (d : DataFrame) (h : hasCol d "total_cost" = false) :
    hasCol (preTotal d) "total_cost" = false := by
  unfold preTotal
  exact guardedSet_dExpectedDays.hasCol_not_new _ _
    (guardedSet_dActualDays.hasCol_not_new _ _
      (guardedSet_dMaintCost.hasCol_not_new _ _
        (guardedSet_dFuelCost.hasCol_not_new _ _
          (guardedSet_dPriority.hasCol_not_new _ _
            (guardedSet_dWarehouseLoad.hasCol_not_new _ _
              (guardedSet_dVehicleCap.hasCol_not_new _ _
                (guardedSet_dRoute.hasCol_not_new _ _ h (by decide))
                (by decide)) (by decide)) (by decide)) (by decide)) (by decide))
    (by decide)) (by decide)

/- ----------------------------------------------------------------
   Claim theorems: the Dataset Fuser (C1, C5, C6, C7)
   ---------------------------------------------------------------- -/

/-- C1 counterexample: on source tables none of whose column names
contains "cost" or "charge", the fused total_cost is the constant 700
(the sum of the previously defaulted fuel_cost=500 and
maintenance_cost=200), not the constant 1000 the claim asserts. -/
theorem C1_counterexample :
    getCol (load_all_data cSources) "total_cost" = [Value.num 700, Value.num 700] ∧
    getCol (load_all_data cSources) "total_cost" ≠ [Value.num 1000, Value.num 1000] := by
  constructor
  · decide
  · decide

/-- C1 (amended): when total_cost is absent after the joins, it is set
to the row-wise sum over the columns whose name contains "cost" or
"charge" as they stand at the total_cost step; because the fuel_cost
and maintenance_cost defaults have already run, that column set is
never empty, so the constant-1000 branch is unreachable in
load_all_data. -/
theorem C1_total_cost_sum (s : Sources)
    (hw : wellFormedB (fuseSources s) = true)
    (habs : hasCol (fuseSources s) "total_cost" = false) :
    costCols (preTotal (fuseSources s)) ≠ [] ∧
    getCol (load_all_data s) "total_cost" =
      rowSums (preTotal (fuseSources s)) (costCols (preTotal (fuseSources s))) := by
  have hpt : hasCol (preTotal (fuseSources s)) "total_cost" = false :=
    hasCol_total_preTotal_false (fuseSources s) habs
  have hfuel : hasCol (preTotal (fuseSources s)) "fuel_cost" = true :=
    hasCol_preTotal_fuel (fuseSources s)
  have hwpt : wellFormedB (preTotal (fuseSources s)) = true := wf_preTotal (fuseSources s) hw
  have hmem : "fuel_cost" ∈ (preTotal (fuseSources s)).cols :=
    (hasCol_iff_mem (preTotal (fuseSources s)) "fuel_cost").1 hfuel
  have hfc : "fuel_cost" ∈ costCols (preTotal (fuseSources s)) :=
    List.mem_filter.2 ⟨hmem, by decide⟩
  have hne : costCols (preTotal (fuseSources s)) ≠ [] := List.ne_nil_of_mem hfc
  refine ⟨hne, ?_⟩
  have hdt : dTotalCost (preTotal (fuseSources s)) =
      setCol (preTotal (fuseSources s)) "total_cost"
        (rowSums (preTotal (fuseSources s)) (costCols (preTotal (fuseSources s)))) := by
    unfold dTotalCost
    rw [if_neg (by simp [hpt])]
    cases hcc : costCols (preTotal (fuseSources s)) with
    | nil => exact absurd hcc hne
    | cons c0 cs => rfl
  have hbase : getCol (dTotalCost (preTotal (fuseSources s))) "total_cost" =
      rowSums (preTotal (fuseSources s)) (costCols (preTotal (fuseSources s))) := by
    rw [hdt]
    exact getCol_setCol_self _ _ _ hwpt (by simp [rowSums, numRows])
  have hw2 : wellFormedB (dTotalCost (preTotal (fuseSources s))) = true :=
    guardedSet_dTotalCost.wf _ hwpt
  have hc2 : hasCol (dTotalCost (preTotal (fuseSources s))) "total_cost" = true :=
    guardedSet_dTotalCost.hasCol_target _
  have e1 : getCol (dFeedbackScore (dTotalCost (preTotal (fuseSources s)))) "total_cost" =
      getCol (dTotalCost (preTotal (fuseSources s))) "total_cost" :=
    guardedSet_dFeedbackScore.getCol_pres _ _ hw2 hc2
  have hw3 : wellFormedB (dFeedbackScore (dTotalCost (preTotal (fuseSources s)))) = true :=
    guardedSet_dFeedbackScore.wf _ hw2
  have hc3 : hasCol (dFeedbackScore (dTotalCost (preTotal (fuseSources s)))) "total_cost" = true :=
    guardedSet_dFeedbackScore.hasCol_mono _ _ hc2
  have e2 : getCol (dFuelRate (dFeedbackScore (dTotalCost (preTotal (fuseSources s)))))
      "total_cost" = getCol (dFeedbackScore (dTotalCost (preTotal (fuseSources s)))) "total_cost" :=
    guardedSet_dFuelRate.getCol_pres _ _ hw3 hc3
  rw [load_all_data_eq, e2, e1, hbase]

/-- C1 witness: the amended statement instantiated at the concrete
cost-free sources. -/
theorem C1_total_cost_sum_witness :
    costCols (preTotal (fuseSources cSources)) ≠ [] ∧
    getCol (load_all_data cSources) "total_cost" =
      rowSums (preTotal (fuseSources cSources)) (costCols (preTotal (fuseSources cSources))) :=
  C1_total_cost_sum cSources (by decide) (by decide)

/-- C5: whatever the seven source tables contain, the table returned by
load_all_data has every one of the eleven required analytic columns,
supplied by the joins or by the defaulting chain. -/
theorem C5_required_columns (s : Sources) :
    hasCol (load_all_data s) "route_distance_km" = true ∧
    hasCol (load_all_data s) "vehicle_capacity" = true ∧
    hasCol (load_all_data s) "warehouse_load" = true ∧
    hasCol (load_all_data s) "delivery_priority" = true ∧
    hasCol (load_all_data s) "fuel_cost" = true ∧
    hasCol (load_all_data s) "maintenance_cost" = true ∧
    hasCol (load_all_data s) "actual_delivery_days" = true ∧
    hasCol (load_all_data s) "expected_delivery_days" = true ∧
    hasCol (load_all_data s) "total_cost" = true ∧
    hasCol (load_all_data s) "feedback_score" = true ∧
    hasCol (load_all_data s) "fuel_consumption_rate" = true := by
  rw [load_all_data_eq]
  have m11 : ∀ c, hasCol (dFeedbackScore (dTotalCost (preTotal (fuseSources s)))) c = true →
      hasCol (dFuelRate (dFeedbackScore (dTotalCost (preTotal (fuseSources s))))) c = true :=
    fun c h => guardedSet_dFuelRate.hasCol_mono _ c h
  have m10 : ∀ c, hasCol (dTotalCost (preTotal (fuseSources s))) c = true →
      hasCol (dFuelRate (dFeedbackScore (dTotalCost (preTotal (fuseSources s))))) c = true :=
    fun c h => m11 c (guardedSet_dFeedbackScore.hasCol_mono _ c h)
  have m9 : ∀ c, hasCol (preTotal (fuseSources s)) c = true →
      hasCol (dFuelRate (dFeedbackScore (dTotalCost (preTotal (fuseSources s))))) c = true :=
    fun c h => m10 c (guardedSet_dTotalCost.hasCol_mono _ c h)
  have m8 : ∀ c, hasCol (dActualDays (dMaintCost (dFuelCost (dPriority (dWarehouseLoad
      (dVehicleCap (dRoute (fuseSources s)))))))) c = true →
      hasCol (dFuelRate (dFeedbackScore (dTotalCost (preTotal (fuseSources s))))) c = true :=
    fun c h => m9 c (guardedSet_dExpectedDays.hasCol_mono _ c h)
  have m7 : ∀ c, hasCol (dMaintCost (dFuelCost (dPriority (dWarehouseLoad
      (dVehicleCap (dRoute (fuseSources s))))))) c = true →
      hasCol (dFuelRate (dFeedbackScore (dTotalCost (preTotal (fuseSources s))))) c = true :=
    fun c h => m8 c (guardedSet_dActualDays.hasCol_mono _ c h)
  have m6 : ∀ c, hasCol (dFuelCost (dPriority (dWarehouseLoad
      (dVehicleCap (dRoute (fuseSources s)))))) c = true →
      hasCol (dFuelRate (dFeedbackScore (dTotalCost (preTotal (fuseSources s))))) c = true :=
    fun c h => m7 c (guardedSet_dMaintCost.hasCol_mono _ c h)
  have m5 : ∀ c, hasCol (dPriority (dWarehouseLoad (dVehicleCap (dRoute (fuseSources s))))) c =
      true →
      hasCol (dFuelRate (dFeedbackScore (dTotalCost (preTotal (fuseSources s))))) c = true :=
    fun c h => m6 c (guardedSet_dFuelCost.hasCol_mono _ c h)
  have m4 : ∀ c, hasCol (dWarehouseLoad (dVehicleCap (dRoute (fuseSources s)))) c = true →
      hasCol (dFuelRate (dFeedbackScore (dTotalCost (preTotal (fuseSources s))))) c = true :=
    fun c h => m5 c (guardedSet_dPriority.hasCol_mono _ c h)
  have m3 : ∀ c, hasCol (dVehicleCap (dRoute (fuseSources s))) c = true →
      hasCol (dFuelRate (dFeedbackScore (dTotalCost (preTotal (fuseSources s))))) c = true :=
    fun c h => m4 c (guardedSet_dWarehouseLoad.hasCol_mono _ c h)
  have m2 : ∀ c, hasCol (dRoute (fuseSources s)) c = true →
      hasCol (dFuelRate (dFeedbackScore (dTotalCost (preTotal (fuseSources s))))) c = true :=
    fun c h => m3 c (guardedSet_dVehicleCap.hasCol_mono _ c h)
  refine ⟨?_, ?_, ?_, ?_, ?_, ?_, ?_, ?_, ?_, ?_, ?_⟩
  · exact m2 _ (guardedSet_dRoute.hasCol_target _)
  · exact m3 _ (guardedSet_dVehicleCap.hasCol_target _)
  · exact m4 _ (guardedSet_dWarehouseLoad.hasCol_target _)
  · exact m5 _ (guardedSet_dPriority.hasCol_target _)
  · exact m6 _ (guardedSet_dFuelCost.hasCol_target _)
  · exact m7 _ (guardedSet_dMaintCost.hasCol_target _)
  · exact m8 _ (guardedSet_dActualDays.hasCol_target _)
  · exact m9 _ (guardedSet_dExpectedDays.hasCol_target _)
  · exact m10 _ (guardedSet_dTotalCost.hasCol_target _)
  · exact m11 _ (guardedSet_dFeedbackScore.hasCol_target _)
  · exact guardedSet_dFuelRate.hasCol_target _

/-- C6: the post-join defaulting of load_all_data fires only for
columns entirely absent from the fused table; every column already
present after the joins keeps every one of its cells, nulls included,
unchanged in the final table. -/
theorem C6_no_backfill (s : Sources) (c : String)
    (hw : wellFormedB (fuseSources s) = true) (hc : hasCol (fuseSources s) c = true) :
    getCol (load_all_data s) c = getCol (fuseSources s) c := by
  obtain ⟨e1, h1, w1⟩ := guardedSet_dRoute.step (fuseSources s) c hw hc
  obtain ⟨e2, h2, w2⟩ := guardedSet_dVehicleCap.step _ c w1 h1
  obtain ⟨e3, h3, w3⟩ := guardedSet_dWarehouseLoad.step _ c w2 h2
  obtain ⟨e4, h4, w4⟩ := guardedSet_dPriority.step _ c w3 h3
  obtain ⟨e5, h5, w5⟩ := guardedSet_dFuelCost.step _ c w4 h4
  obtain ⟨e6, h6, w6⟩ := guardedSet_dMaintCost.step _ c w5 h5
  obtain ⟨e7, h7, w7⟩ := guardedSet_dActualDays.step _ c w6 h6
  obtain ⟨e8, h8, w8⟩ := guardedSet_dExpectedDays.step _ c w7 h7
  obtain ⟨e9, h9, w9⟩ := guardedSet_dTotalCost.step _ c w8 h8
  obtain ⟨e10, h10, w10⟩ := guardedSet_dFeedbackScore.step _ c w9 h9
  obtain ⟨e11, _, _⟩ := guardedSet_dFuelRate.step _ c w10 h10
  rw [load_all_data_eq]
  show getCol (dFuelRate (dFeedbackScore (dTotalCost (dExpectedDays (dActualDays (dMaintCost
    (dFuelCost (dPriority (dWarehouseLoad (dVehicleCap (dRoute (fuseSources s)))))))))))) c = _
  rw [e11, e10, e9, e8, e7, e6, e5, e4, e3, e2, e1]

/-- C6 witness: on the concrete sources the fused actual_delivery_days
column contains a per-row null (the unmatched order) and is carried to
the final table unchanged, not backfilled. -/
theorem C6_no_backfill_witness :
    getCol (load_all_data cSources) "actual_delivery_days" =
      getCol (fuseSources cSources) "actual_delivery_days" ∧
    getCol (fuseSources cSources) "actual_delivery_days" = [Value.num 6, Value.null] :=
  ⟨C6_no_backfill cSources "actual_delivery_days" (by decide) (by decide), by decide⟩

/-- C7: the fusion sequence is left-joins anchored on the orders table,
so every row of the orders table yields at least one corresponding
(left-extended) row in the table load_all_data returns, matched or
not; the hypothesis states that the order_id join key exists after
normalization, without which the source raises a join KeyError. -/
theorem C7_orders_preserved (s : Sources) (row : List Value)
    (hkey : hasCol (ordersKeyed s) "order_id" = true)
    (hrow : row ∈ s.orders.rows) :
    ∃ r', r' ∈ (load_all_data s).rows ∧ rowExt row r' := by
  have h0 : row ∈ (ordersKeyed s).rows := by
    rw [show (ordersKeyed s).rows = s.orders.rows from by
      unfold ordersKeyed; rw [rows_autoRenameId, rows_standardizeHeaders]]
    exact hrow
  have hch : ExtRows (ordersKeyed s) (applyDefaults (fuseSources s)) :=
    extRows_trans (extRows_ordersPrepped s hkey)
      (extRows_trans (extRows_fuseSources s) (extRows_applyDefaults (fuseSources s)))
  exact hch row h0

/-- C7 witness: the first concrete order row reappears, extended by the
joined and defaulted columns, in the fused result. -/
theorem C7_orders_preserved_witness :
    ∃ r', r' ∈ (load_all_data cSources).rows ∧ rowExt [Value.str "A001"] r' :=
  C7_orders_preserved cSources [Value.str "A001"] (by decide) (by decide)

/- ----------------------------------------------------------------
   Lemmas on sorting, dedup and fallible maps
   ---------------------------------------------------------------- -/

theorem length_insertSorted {α : Type} (le : α → α → Bool) (a : α) (l : List α) :
    (insertSorted le a l).length = l.length + 1 := by
  induction l with
  | nil => rfl
  | cons b bs ih =>
    unfold insertSorted
    by_cases h : le a b = true
    · rw [if_pos h]; rfl
    · rw [if_neg h, List.length_cons, ih, List.length_cons]

theorem length_sortByB {α : Type} (le : α → α → Bool) (l : List α) :
    (sortByB le l).length = l.length := by
  induction l with
  | nil => rfl
  | cons a xs ih =>
    unfold sortByB
    rw [length_insertSorted, ih, List.length_cons]

theorem mem_insertSorted {α : Type} (le : α → α → Bool) (a x : α) (l : List α) :
    x ∈ insertSorted le a l ↔ x = a ∨ x ∈ l := by
  induction l with
  | nil => simp [insertSorted]
  | cons b bs ih =>
    unfold insertSorted
    by_cases h : le a b = true
    · rw [if_pos h]
      simp [List.mem_cons]
    · rw [if_neg h]
      simp [List.mem_cons, ih]
      tauto

theorem mem_sortByB {α : Type} (le : α → α → Bool) (x : α) (l : List α) :
    x ∈ sortByB le l ↔ x ∈ l := by
  induction l with
  | nil => simp [sortByB]
  | cons a xs ih =>
    unfold sortByB
    rw [mem_insertSorted]
    simp [List.mem_cons, ih]

theorem dedup_all_eq_single {α : Type} [DecidableEq α] (l : List α) (c : α)
    (hne : l ≠ []) (h : ∀ v ∈ l, v = c) : l.dedup = [c] := by
  have hcmem : c ∈ l.dedup := by
    cases hl : l with
    | nil => exact absurd hl hne
    | cons a t =>
      have ha : a = c := h a (by rw [hl]; exact List.mem_cons_self a t)
      refine List.mem_dedup.2 ?_
      rw [← ha]
      exact List.mem_cons_self a t
  have hall : ∀ x ∈ l.dedup, x = c := fun x hx => h x (List.mem_dedup.1 hx)
  have hnd := l.nodup_dedup
  cases hd : l.dedup with
  | nil => rw [hd] at hcmem; cases hcmem
  | cons x t =>
    cases t with
    | nil =>
      have : x = c := hall x (by rw [hd]; exact List.mem_cons_self x [])
      rw [this]
    | cons y t2 =>
      exfalso
      rw [hd] at hnd
      have hx : x = c := hall x (by rw [hd]; exact List.mem_cons_self x (y :: t2))
      have hy : y = c := hall y (by
        rw [hd]
        exact List.mem_cons_of_mem _ (List.mem_cons_self y t2))
      have hnotin : x ∉ y :: t2 := (List.nodup_cons.1 hnd).1
      apply hnotin
      rw [hx, hy]
      exact List.mem_cons_self c t2

theorem uniqueSortedInt_single (l : List Int) (c : Int) (hne : l ≠ [])
    (h : ∀ v ∈ l, v = c) : uniqueSortedInt l = [c] := by
  unfold uniqueSortedInt
  rw [dedup_all_eq_single l c hne h]
  rfl

theorem seqMapE_ok_length {α β : Type} (f : α → Except String β) (l : List α) (bs : List β)
    (h : seqMapE f l = Except.ok bs) : bs.length = l.length := by
  induction l generalizing bs with
  | nil =>
    unfold seqMapE at h
    cases h
    rfl
  | cons a t ih =>
    unfold seqMapE at h
    cases hfa : f a with
    | error e => rw [hfa] at h; cases h
    | ok b =>
      rw [hfa] at h
      cases hst : seqMapE f t with
      | error e => rw [hst] at h; cases h
      | ok bs2 =>
        rw [hst] at h
        cases h
        simp [ih bs2 hst]

theorem seqMapE_cons_error {α β : Type} (f : α → Except String β) (a : α) (l : List α)
    (e : String) (h : f a = Except.error e) : seqMapE f (a :: l) = Except.error e := by
  unfold seqMapE
  rw [h]

theorem seqMapE_error_msg {α β : Type} (f : α → Except String β) (e0 : String)
    (hconst : ∀ b m, f b = Except.error m → m = e0) (l : List α) (m : String)
    (h : seqMapE f l = Except.error m) : m = e0 := by
  induction l with
  | nil => unfold seqMapE at h; cases h
  | cons a t ih =>
    unfold seqMapE at h
    cases hfa : f a with
    | error e => rw [hfa] at h; cases h; exact hconst a _ hfa
    | ok b =>
      rw [hfa] at h
      cases hst : seqMapE f t with
      | error e2 => rw [hst] at h; cases h; exact ih hst
      | ok bs => rw [hst] at h; cases h

theorem seqMapE_error_of_mem {α β : Type} (f : α → Except String β) (e0 : String)
    (hconst : ∀ b m, f b = Except.error m → m = e0) (l : List α) (a : α)
    (hmem : a ∈ l) (hfa : f a = Except.error e0) :
    seqMapE f l = Except.error e0 := by
  induction l with
  | nil => cases hmem
  | cons x t ih =>
    unfold seqMapE
    cases hfx : f x with
    | error m => rw [hconst x m hfx]
    | ok b =>
      rcases List.mem_cons.1 hmem with rfl | hmt
      · rw [hfx] at hfa; cases hfa
      · rw [ih hmt]

theorem encOne_error_of_not_mem (e : LabelEnc) (v : Value) (h : v ∉ e.classes) :
    encOne e v = Except.error unseenMsg := by
  unfold encOne
  cases hx : idxOf? e.classes v with
  | none => rfl
  | some i =>
    exfalso
    exact h ((idxOf?_isSome_iff_mem _ _).1 (by rw [hx]; rfl))

theorem encOne_error_msg (e : LabelEnc) (v : Value) (m : String)
    (h : encOne e v = Except.error m) : m = unseenMsg := by
  unfold encOne at h
  cases hx : idxOf? e.classes v with
  | none => rw [hx] at h; cases h; rfl
  | some i => rw [hx] at h; cases h

/- ----------------------------------------------------------------
   The stratified split on a single label class
   ---------------------------------------------------------------- -/

theorem stratPartition_single (c : Int) (t : Nat) (ps : List (List Int × Int))
    (hall : ∀ p ∈ ps, p.2 = c) :
    stratPartition [(c, t)] ps = (ps.take t, ps.drop t) := by
  induction ps generalizing t with
  | nil => cases t <;> rfl
  | cons p pt ih =>
    have hp : p.2 = c := hall p (List.mem_cons_self p pt)
    have hrest : ∀ q ∈ pt, q.2 = c := fun q hq => hall q (List.mem_cons_of_mem _ hq)
    unfold stratPartition
    have hlook : lookupQ [(c, t)] p.2 = t := by
      unfold lookupQ
      rw [hp]
      simp
    rw [hlook]
    cases t with
    | zero =>
      rw [if_neg (by omega)]
      rw [ih 0 hrest]
      rfl
    | succ k =>
      rw [if_pos (Nat.succ_pos k)]
      have hdec : decQ [(c, Nat.succ k)] p.2 = [(c, k)] := by
        unfold decQ
        rw [hp]
        simp
      rw [hdec, ih k hrest]
      rfl

theorem trainTestSplit_single_class (X : List (List Int)) (y : List Int)
    (hle : y.length ≤ X.length) (hcls : y.dedup.length < 2) :
    (∃ e, trainTestSplit X y = Except.error e) ∨
    (∃ Xtr Xte ytr yte, trainTestSplit X y = Except.ok ((Xtr, Xte), (ytr, yte)) ∧
      Xte ≠ [] ∧ ytr ≠ [] ∧ ∃ c, ∀ v ∈ ytr, v = c) := by
  by_cases h0 : y.length = 0
  · exact Or.inl ⟨_, by unfold trainTestSplit; rw [if_pos h0]⟩
  · have hyne : y ≠ [] := fun he => h0 (by rw [he]; rfl)
    have hdne : y.dedup ≠ [] := by
      cases hy : y with
      | nil => exact absurd hy hyne
      | cons a t =>
        exact List.ne_nil_of_mem (List.mem_dedup.2 (List.mem_cons_self a t))
    have hd1 : y.dedup.length = 1 := by
      have := List.length_pos.2 hdne
      omega
    obtain ⟨c, hdc⟩ := List.length_eq_one.1 hd1
    have hall : ∀ v ∈ y, v = c := fun v hv => by
      have hm : v ∈ y.dedup := List.mem_dedup.2 hv
      rw [hdc] at hm
      simpa using hm
    have hcls1 : uniqueSortedInt y = [c] := uniqueSortedInt_single y c hyne hall
    have hcount : y.count c = y.length := List.count_eq_length.2 (fun b hb => (hall b hb).symm)
    by_cases h1 : y.length = 1
    · refine Or.inl ⟨tooFewMsg, ?_⟩
      unfold trainTestSplit
      rw [if_neg h0]
      have hcond : (((uniqueSortedInt y).map (fun c2 => (c2, y.count c2))).any
          (fun p => decide (p.2 < 2))) = true := by
        rw [hcls1]
        simp [hcount, h1]
      rw [if_pos hcond]
    · have hn2 : 2 ≤ y.length := by omega
      have hcond1 : (((uniqueSortedInt y).map (fun c2 => (c2, y.count c2))).any
          (fun p => decide (p.2 < 2))) = false := by
        rw [hcls1]
        simp [hcount]
        omega
      have ht1 : 1 ≤ (y.length + 3) / 4 := by
        rw [Nat.le_div_iff_mul_le (by omega : 0 < 4)]
        omega
      have ht2 : (y.length + 3) / 4 < y.length := by
        rw [Nat.div_lt_iff_lt_mul (by omega : 0 < 4)]
        omega
      have hcond2 : ¬ ((y.length + 3) / 4 < (uniqueSortedInt y).length) := by
        rw [hcls1]
        simp
        omega
      have hcond3 : ¬ (y.length - (y.length + 3) / 4 < (uniqueSortedInt y).length) := by
        rw [hcls1]
        simp
        omega
      have hq : ttsQuota y = [(c, (y.length + 3) / 4)] := by
        unfold ttsQuota
        rw [hcls1]
        simp only [List.map_cons, List.map_nil]
        have hv : (y.count c * ((y.length + 3) / 4) + (y.length - 1)) / y.length =
            (y.length + 3) / 4 := by
          rw [hcount, Nat.mul_add_div (by omega : 0 < y.length),
            Nat.div_eq_of_lt (by omega : y.length - 1 < y.length), Nat.add_zero]
        rw [hv]
      have hallp : ∀ p ∈ X.zip y, p.2 = c := fun p hp => hall p.2 (List.of_mem_zip hp).2
      have hsp := stratPartition_single c ((y.length + 3) / 4) (X.zip y) hallp
      have hzlen : (X.zip y).length = y.length := by
        rw [List.length_zip]
        exact Nat.min_eq_right hle
      refine Or.inr ⟨((X.zip y).drop ((y.length + 3) / 4)).map (fun p => p.1),
        ((X.zip y).take ((y.length + 3) / 4)).map (fun p => p.1),
        ((X.zip y).drop ((y.length + 3) / 4)).map (fun p => p.2),
        ((X.zip y).take ((y.length + 3) / 4)).map (fun p => p.2),
        ?_, ?_, ?_, ⟨c, ?_⟩⟩
      · unfold trainTestSplit
        rw [if_neg h0, if_neg (by simp [hcond1]), if_neg hcond2, if_neg hcond3, hq, hsp]
      · intro hemp
        have hlen0 : (((X.zip y).take ((y.length + 3) / 4)).map
            (fun p : List Int × Int => p.1)).length = 0 := by
          rw [hemp]
          rfl
        rw [List.length_map, List.length_take, hzlen] at hlen0
        omega
      · intro hemp
        have hlen0 : (((X.zip y).drop ((y.length + 3) / 4)).map
            (fun p : List Int × Int => p.2)).length = 0 := by
          rw [hemp]
          rfl
        rw [List.length_map, List.length_drop, hzlen] at hlen0
        omega
      · intro v hv
        obtain ⟨p, hp, hpe⟩ := List.mem_map.1 hv
        exact hpe ▸ hallp p (List.drop_subset _ _ hp)

theorem numRows_projectCols (d : DataFrame) (cs : List String) :
    numRows (projectCols d cs) = numRows d := by
  simp [projectCols, numRows]

theorem prepY_length_le (d : DataFrame) : (prepY d).length ≤ (prepX d).length := by
  unfold prepY prepX
  by_cases hok : trainCols0k d = true
  · rw [if_pos hok]
    have hpx : ((projectCols (prepModelFrame d).1 featureList).rows.map
        (fun r => r.map valInt)).length = numRows (prepModelFrame d).1 := by
      rw [List.length_map]
      exact numRows_projectCols (prepModelFrame d).1 featureList
    cases hdc : colIdx? (prepModelFrame d).1.cols "delayed" with
    | none =>
      rw [getCol_eq_none _ _ hdc]
      simp
    | some i =>
      have hhc : hasCol (prepModelFrame d).1 "delayed" = true := by
        unfold hasCol
        rw [hdc]
        rfl
      rw [List.length_map, getCol_length_of_hasCol _ _ hhc, hpx]
  · rw [if_neg hok]
    simp

/- ----------------------------------------------------------------
   Claim theorems: the Risk Model Trainer (C2, C8, C9)
   ---------------------------------------------------------------- -/

/-- C2 counterexample: on a table whose rows are all on time (a single
label class), train_delay_model does fail, but with numpy's
out-of-bounds error from predict_proba(...)[:, 1], not with any
"insufficient label diversity" error: no such check exists in the
code. -/
theorem C2_counterexample :
    trainDelayModel oneClassDf =
      Except.error "index 1 is out of bounds for axis 1 with size 1" ∧
    strContains "index 1 is out of bounds for axis 1 with size 1"
      "insufficient label diversity" = false :=
  ⟨rfl, by decide⟩

/-- C2 (amended): whenever fewer than two distinct label classes remain
after label derivation and the dropping of incomplete rows,
train_delay_model fails with an error — it never returns a fitted
model — but the error is a library validation or indexing error, not a
labelled insufficient-label-diversity error. -/
theorem C2_single_class_errors (d : DataFrame)
    (hcls : (prepY d).dedup.length < 2) :
    ∃ e, trainDelayModel d = Except.error e := by
  by_cases hok : trainCols0k d = true
  · rcases trainTestSplit_single_class (prepX d) (prepY d) (prepY_length_le d) hcls with
      ⟨e, he⟩ | ⟨Xtr, Xte, ytr, yte, heq, hXte, hytr, c, hc⟩
    · refine ⟨e, ?_⟩
      unfold trainDelayModel
      rw [if_neg (by simp [hok]), he]
    · have hfit : rfFit 42 Xtr ytr = Except.ok ⟨42, uniqueSortedInt ytr, Xtr, ytr⟩ := by
        unfold rfFit
        rw [if_neg (by simp [hytr])]
      have hcls1 : uniqueSortedInt ytr = [c] := uniqueSortedInt_single ytr c hytr hc
      obtain ⟨x0, xrest, hXe⟩ : ∃ x0 xrest, Xte = x0 :: xrest := by
        cases Xte with
        | nil => exact absurd rfl hXte
        | cons a t => exact ⟨a, t, rfl⟩
      have hproba : probaCol1 (rfProbaRow ⟨42, uniqueSortedInt ytr, Xtr, ytr⟩ x0) =
          Except.error "index 1 is out of bounds for axis 1 with size 1" := by
        unfold rfProbaRow
        rw [hcls1]
        rfl
      refine ⟨"index 1 is out of bounds for axis 1 with size 1", ?_⟩
      unfold trainDelayModel
      rw [if_neg (by simp [hok])]
      simp only [heq, hfit, hXe]
      rw [seqMapE_cons_error _ x0 xrest _ hproba]
  · refine ⟨"KeyError", ?_⟩
    have hf : trainCols0k d = false := by
      revert hok
      cases trainCols0k d <;> simp
    unfold trainDelayModel
    rw [if_pos (by rw [hf]; rfl)]

/-- C2 witness: the amended statement at the concrete single-class
table. -/
theorem C2_single_class_errors_witness :
    ∃ e, trainDelayModel oneClassDf = Except.error e :=
  C2_single_class_errors oneClassDf (by decide)

/-- C8: for every row, the derived label is 1 exactly when
actual_delivery_days exceeds expected_delivery_days and 0 otherwise
(null comparisons count as not exceeded, as in pandas). -/
theorem C8_delay_label (d : DataFrame) (hw : wellFormedB d = true)
    (ha : hasCol d "actual_delivery_days" = true)
    (he : hasCol d "expected_delivery_days" = true)
    (i : Nat) (hi : i < numRows d) :
    cellAt (deriveDelayed d) "delayed" i =
      Value.num (if valGt (cellAt d "actual_delivery_days" i)
        (cellAt d "expected_delivery_days" i) then 1 else 0) := by
  have hlenA := getCol_length_of_hasCol d _ ha
  have hlenE := getCol_length_of_hasCol d _ he
  have hzl : ((getCol d "actual_delivery_days").zip
      (getCol d "expected_delivery_days")).length = numRows d := by
    rw [List.length_zip, hlenA, hlenE, Nat.min_self]
  have hcol : getCol (deriveDelayed d) "delayed" =
      ((getCol d "actual_delivery_days").zip (getCol d "expected_delivery_days")).map
        (fun p => Value.num (if valGt p.1 p.2 then 1 else 0)) :=
    getCol_setCol_self d "delayed" _ hw (by rw [List.length_map]; exact hzl)
  unfold cellAt
  rw [hcol]
  unfold nthV
  rw [nthD_map (Value.null, Value.null) Value.null _ _ i (by rw [hzl]; exact hi)]
  rw [nthD_zip Value.null Value.null _ _ i (by rw [hlenA]; exact hi)
    (by rw [hlenE]; exact hi)]

/-- C8 witness: on the concrete table, the row with actual 6 and
expected 4 gets label 1, and the row with actual 3 and expected 5 gets
label 0. -/
theorem C8_delay_label_witness :
    cellAt (deriveDelayed wdf) "delayed" 0 =
      Value.num (if valGt (cellAt wdf "actual_delivery_days" 0)
        (cellAt wdf "expected_delivery_days" 0) then 1 else 0) ∧
    cellAt (deriveDelayed wdf) "delayed" 0 = Value.num 1 ∧
    cellAt (deriveDelayed wdf) "delayed" 4 = Value.num 0 :=
  ⟨C8_delay_label wdf (by decide) (by decide) (by decide) 0 (by decide),
   by decide, by decide⟩

/-- C9: train_delay_model is a deterministic function of its input
table (all randomness is fixed by the built-in seed 42): two runs on
the identical table yield identical confusion matrices and identical
feature-importance orderings. -/
theorem C9_deterministic (d : DataFrame) (r1 r2 : TrainResult)
    (h1 : trainDelayModel d = Except.ok r1) (h2 : trainDelayModel d = Except.ok r2) :
    r1.metrics.confusion = r2.metrics.confusion ∧
    r1.metrics.featureImportance = r2.metrics.featureImportance := by
  rw [h1] at h2
  cases h2
  exact ⟨rfl, rfl⟩

/-- C9 witness: the trainer succeeds on the concrete two-class table
and the theorem applies to its two (identical) runs. -/
theorem C9_deterministic_witness :
    wTR.metrics.confusion = wTR.metrics.confusion ∧
    wTR.metrics.featureImportance = wTR.metrics.featureImportance :=
  C9_deterministic wdf wTR wTR rfl rfl

/- ----------------------------------------------------------------
   Claim theorem: the Inference Interface (C4)
   ---------------------------------------------------------------- -/

theorem encTransform_error_of_unseen (e : LabelEnc) (vs : List Value) (v : Value)
    (hv : v ∈ vs) (hvn : v ∉ e.classes) :
    encTransform e vs = Except.error unseenMsg :=
  seqMapE_error_of_mem (encOne e) unseenMsg (fun b m hb => encOne_error_msg e b m hb)
    vs v hv (encOne_error_of_not_mem e v hvn)

theorem encodeWithFitted_unseen (encs : List (String × LabelEnc)) :
    ∀ (d : DataFrame) (c : String) (e : LabelEnc),
    (encs.map Prod.fst).Nodup → (c, e) ∈ encs →
    wellFormedB d = true → hasCol d c = true →
    (∃ v ∈ getCol d c, v ∉ e.classes) →
    encodeWithFitted encs d = Except.error unseenMsg := by
  induction encs with
  | nil =>
    intro d c e _ hmem _ _ _
    cases hmem
  | cons p rest ih =>
    intro d c e hnd hmem hw hc hun
    obtain ⟨c', e'⟩ := p
    unfold encodeWithFitted
    by_cases hcc : c' = c
    · subst hcc
      have he' : e' = e := by
        rcases List.mem_cons.1 hmem with heq | hmt
        · injection heq with h1 h2
          exact h2.symm
        · exfalso
          have hin : c' ∈ rest.map Prod.fst := by
            have := List.mem_map_of_mem Prod.fst hmt
            simpa using this
          exact (List.nodup_cons.1 hnd).1 hin
      subst he'
      rw [if_pos hc]
      obtain ⟨v, hv, hvn⟩ := hun
      rw [encTransform_error_of_unseen e' (getCol d c') v hv hvn]
    · have hmt : (c, e) ∈ rest := by
        rcases List.mem_cons.1 hmem with heq | hmt
        · exact absurd (congrArg Prod.fst heq).symm hcc
        · exact hmt
      have hnd' : (rest.map Prod.fst).Nodup := (List.nodup_cons.1 hnd).2
      by_cases hhas : hasCol d c' = true
      · rw [if_pos hhas]
        cases htr : encTransform e' (getCol d c') with
        | error m =>
          rw [seqMapE_error_msg (encOne e') unseenMsg
            (fun b m2 hb => encOne_error_msg e' b m2 hb) _ m htr]
        | ok ns =>
          have hlen : ((ns.map (fun n => Value.num (Int.ofNat n)))).length = numRows d := by
            rw [List.length_map, seqMapE_ok_length _ _ _ htr,
              getCol_length_of_hasCol d c' hhas]
          refine ih (setCol d c' (ns.map (fun n => Value.num (Int.ofNat n)))) c e hnd' hmt
            (wellFormedB_setCol d c' _ hw hlen)
            (hasCol_setCol_of_hasCol d c c' _ hc) ?_
          obtain ⟨v, hv, hvn⟩ := hun
          refine ⟨v, ?_, hvn⟩
          rw [getCol_setCol_ne d c c' _ hw hlen hc (fun h2 => hcc h2.symm)]
          exact hv
      · rw [if_neg hhas]
        exact ih d c e hnd' hmt hw hc hun

/-- C4: feeding the inference path a feature row holding a categorical
value outside an encoder's fitted class set makes it fail with the
explicit unseen-labels error of LabelEncoder.transform; it never
returns a delay probability nor an arbitrary encoding. -/
theorem C4_unknown_category (m : RFModel) (encs : List (String × LabelEnc))
    (input : DataFrame) (c : String) (e : LabelEnc)
    (hnd : (encs.map Prod.fst).Nodup) (hmem : (c, e) ∈ encs)
    (hw : wellFormedB input = true) (hc : hasCol input c = true)
    (hun : ∃ v ∈ getCol input c, v ∉ e.classes) :
    predictRiskRow m encs input = Except.error unseenMsg := by
  unfold predictRiskRow
  rw [encodeWithFitted_unseen encs input c e hnd hmem hw hc hun]

/-- C4 witness: a priority value "urgent" never seen by the fitted
encoder makes the concrete inference call fail with the unseen-labels
error. -/
theorem C4_unknown_category_witness :
    predictRiskRow wModel [("delivery_priority", wEnc)] wUnseenInput =
      Except.error unseenMsg :=
  C4_unknown_category wModel [("delivery_priority", wEnc)] wUnseenInput
    "delivery_priority" wEnc (by decide) (by decide) (by decide) (by decide) (by decide)

/- ----------------------------------------------------------------
   Claim theorems: object-level frame effects (C3, C10)
   ---------------------------------------------------------------- -/

/-- C3 counterexample: standardize_columns assigns df.columns in
place, so after the call the caller's table object has changed — the
claim that the input table is left unchanged is false. -/
theorem C3_counterexample :
    readSt (standardizeColumnsSt cStore 0).1 0 ≠ readSt cStore 0 := by decide

/-- C3 (amended): the Column Normalizer operations are deterministic
and their effect is confined to the argument table object, which they
mutate in place and return (the returned handle aliases the argument);
every other object is untouched, but the caller's table is rewritten,
not left unchanged. -/
theorem C3_inplace_normalizer (s : Store) (r r' : Nat) (hne : r' ≠ r)
    (possible : List String) (std : String) :
    (standardizeColumnsSt s r).2 = r ∧
    readSt (standardizeColumnsSt s r).1 r = standardizeHeaders (readSt s r) ∧
    readSt (standardizeColumnsSt s r).1 r' = readSt s r' ∧
    (autoRenameIdSt s r possible std).2 = r ∧
    readSt (autoRenameIdSt s r possible std).1 r = autoRenameId (readSt s r) possible std ∧
    readSt (autoRenameIdSt s r possible std).1 r' = readSt s r' := by
  refine ⟨rfl, ?_, ?_, ?_, ?_, ?_⟩
  · simp [standardizeColumnsSt, writeSt, readSt, hupd]
  · simp [standardizeColumnsSt, writeSt, readSt, hupd, hne]
  · unfold autoRenameIdSt
    cases possible.find? (fun n => hasCol (readSt s r) n) <;> rfl
  · unfold autoRenameIdSt
    cases hf : possible.find? (fun n => hasCol (readSt s r) n) with
    | none =>
      unfold autoRenameId
      rw [hf]
    | some n =>
      simp [writeSt, readSt, hupd]
  · unfold autoRenameIdSt
    cases hf : possible.find? (fun n => hasCol (readSt s r) n) with
    | none => rfl
    | some n => simp [writeSt, readSt, hupd, hne]

/-- C3 witness: the amended statement at a concrete store and a second
untouched object slot. -/
theorem C3_inplace_normalizer_witness :
    (standardizeColumnsSt cStore 0).2 = 0 ∧
    readSt (standardizeColumnsSt cStore 0).1 0 = standardizeHeaders (readSt cStore 0) ∧
    readSt (standardizeColumnsSt cStore 0).1 1 = readSt cStore 1 ∧
    (autoRenameIdSt cStore 0 ["orderid", "order_id"] "order_id").2 = 0 ∧
    readSt (autoRenameIdSt cStore 0 ["orderid", "order_id"] "order_id").1 0 =
      autoRenameId (readSt cStore 0) ["orderid", "order_id"] "order_id" ∧
    readSt (autoRenameIdSt cStore 0 ["orderid", "order_id"] "order_id").1 1 =
      readSt cStore 1 :=
  C3_inplace_normalizer cStore 0 1 (by decide) ["orderid", "order_id"] "order_id"

/-- C10: train_delay_model copies its input before any mutation, so
the caller's table object is bit-for-bit unchanged after the call, and
the returned value is the pure pipeline applied to the table's value. -/
theorem C10_trainer_pure (s : Store) (r : Nat) (hr : r < s.next) :
    readSt (trainDelayModelSt s r).1 r = readSt s r ∧
    (trainDelayModelSt s r).2 = trainDelayModel (readSt s r) := by
  constructor
  · show hupd (hupd (hupd s.mem s.next (readSt s r)) s.next
      (deriveDelayed (readSt s r))) (s.next + 1) (prepModelFrame (readSt s r)).1 r = s.mem r
    unfold hupd
    rw [if_neg (by omega), if_neg (by omega), if_neg (by omega)]
  · rfl

/-- C10 witness: at a concrete store the caller's slot is unchanged by
the training call. -/
theorem C10_trainer_pure_witness :
    readSt (trainDelayModelSt cStore 0).1 0 = readSt cStore 0 ∧
    (trainDelayModelSt cStore 0).2 = trainDelayModel (readSt cStore 0) :=
  C10_trainer_pure cStore 0 (by decide)

end NexGen
